import Mathlib

/-!
Verification of the recursive expression-tree builder of
`src/appabuild/model/builder.py`.

Shallow-embedding conventions:

* sympy expressions are embedded syntactically as `SExpr`; Python numeric
  values (ints/floats) are idealised as rationals `ℚ`.  A Python value that
  is either a number or a sympy expression is a `Formula`
  (`Formula.pynum` = Python number, `Formula.sexpr` = sympy object);
  arithmetic on `Formula` mirrors Python/sympy dispatch: an operation
  involving a sympy operand yields a sympy result.  sympy's automatic
  simplification is not modelled; claims about expression values are
  stated through the evaluation function `SExpr.eval`.
* The module-level dict `act_symbols` of builder.py is embedded as an
  insertion-ordered association list `SymTable` threaded explicitly
  through all functions (Python mutates it in place).
* Exceptions are embedded as `Except BuildError`; unbounded recursion is
  embedded with an explicit fuel argument (`BuildError.outOfFuel` is an
  embedding artifact, not a Python behaviour).  On an error the embedding
  discards the intermediate registry state; all claims about the registry
  concern pre-error or successful runs.
* External collaborators (Brightway database, `lca_algebraic` helpers,
  the apparun tree/parameter classes) are modelled at their interface
  boundary; definitions whose doc comment starts with `Modelled from the
  spec:` translate code that is not part of this repository.
-/

/-- Syntactic symbolic arithmetic expression (a sympy `Expr`). -/
inductive SExpr where
  | num (q : ℚ)
  | sym (s : String)
  | add (a b : SExpr)
  | mul (a b : SExpr)
  | div (a b : SExpr)
deriving Repr, DecidableEq

/-- A Python value appearing in formulas: either a plain Python number
(`isinstance(expr, float)` in builder.py) or a sympy expression. -/
inductive Formula where
  | pynum (q : ℚ)
  | sexpr (e : SExpr)
deriving Repr, DecidableEq

/-- Coerce a Python number into a sympy expression (sympy auto-wraps
numeric operands). -/
def Formula.toSExpr : Formula → SExpr
  | Formula.pynum q => SExpr.num q
  | Formula.sexpr e => e

/-- Python `+` on number-or-sympy values: two Python numbers add as
numbers, otherwise sympy builds a symbolic sum. -/
def pyAdd : Formula → Formula → Formula
  | Formula.pynum a, Formula.pynum b => Formula.pynum (a + b)
  | a, b => Formula.sexpr (SExpr.add a.toSExpr b.toSExpr)

/-- Python `*` on number-or-sympy values. -/
def pyMul : Formula → Formula → Formula
  | Formula.pynum a, Formula.pynum b => Formula.pynum (a * b)
  | a, b => Formula.sexpr (SExpr.mul a.toSExpr b.toSExpr)

/-- Python `/` on number-or-sympy values (Python true division; division
by zero is totalised as 0, Rat convention). -/
def pyDiv : Formula → Formula → Formula
  | Formula.pynum a, Formula.pynum b => Formula.pynum (a / b)
  | a, b => Formula.sexpr (SExpr.div a.toSExpr b.toSExpr)

/-- Numeric evaluation of a symbolic expression under an assignment of
the free symbols. -/
def SExpr.eval (ρ : String → ℚ) : SExpr → ℚ
  | SExpr.num q => q
  | SExpr.sym s => ρ s
  | SExpr.add a b => a.eval ρ + b.eval ρ
  | SExpr.mul a b => a.eval ρ * b.eval ρ
  | SExpr.div a b => a.eval ρ / b.eval ρ

/-- Numeric evaluation of a Python number-or-sympy value. -/
def Formula.eval (ρ : String → ℚ) : Formula → ℚ
  | Formula.pynum q => q
  | Formula.sexpr e => e.eval ρ

/-- Free symbols of a sympy expression (`expr.free_symbols`). -/
def SExpr.freeSymbols : SExpr → List String
  | SExpr.num _ => []
  | SExpr.sym s => [s]
  | SExpr.add a b => a.freeSymbols ++ b.freeSymbols
  | SExpr.mul a b => a.freeSymbols ++ b.freeSymbols
  | SExpr.div a b => a.freeSymbols ++ b.freeSymbols

/-- Free symbols of a number-or-sympy value (a Python float has none). -/
def Formula.freeSymbols : Formula → List String
  | Formula.pynum _ => []
  | Formula.sexpr e => e.freeSymbols

/-- First-match association lookup (a Python dict access; keys are unique
in all tables built here). -/
def assocFind {α : Type} [DecidableEq α] {β : Type} : List (α × β) → α → Option β
  | [], _ => none
  | p :: rest, k => if p.1 = k then some p.2 else assocFind rest k

/-- Simultaneous numeric substitution into a sympy expression
(`expr.xreplace` / `lca_algebraic._replace_fixed_params`). -/
def SExpr.substNum (σ : List (String × ℚ)) : SExpr → SExpr
  | SExpr.num q => SExpr.num q
  | SExpr.sym s =>
    match assocFind σ s with
    | some v => SExpr.num v
    | none => SExpr.sym s
  | SExpr.add a b => SExpr.add (a.substNum σ) (b.substNum σ)
  | SExpr.mul a b => SExpr.mul (a.substNum σ) (b.substNum σ)
  | SExpr.div a b => SExpr.div (a.substNum σ) (b.substNum σ)

/-- Numeric substitution lifted to a number-or-sympy value (`xreplace`
leaves a plain number unchanged). -/
def Formula.substNum (σ : List (String × ℚ)) : Formula → Formula
  | Formula.pynum q => Formula.pynum q
  | Formula.sexpr e => Formula.sexpr (e.substNum σ)

/-- Decimal digit character of a digit value (Python string formatting). -/
def digitChar : Nat → Char
  | 0 => '0'
  | 1 => '1'
  | 2 => '2'
  | 3 => '3'
  | 4 => '4'
  | 5 => '5'
  | 6 => '6'
  | 7 => '7'
  | 8 => '8'
  | _ => '9'

/-- Inverse of `digitChar` on decimal digit characters. -/
def charToDigit : Char → Nat
  | '0' => 0
  | '1' => 1
  | '2' => 2
  | '3' => 3
  | '4' => 4
  | '5' => 5
  | '6' => 6
  | '7' => 7
  | '8' => 8
  | _ => 9

/-- Decimal digit list of a natural number, most significant first;
fuel-structural so that it kernel-reduces (any fuel above the argument
gives the digits). -/
def natDigitsAux : Nat → Nat → List Char
  | 0, _ => []
  | Nat.succ fuel, n =>
    if n < 10 then [digitChar n]
    else natDigitsAux fuel (n / 10) ++ [digitChar (n % 10)]

/-- Decimal rendering of a natural number (Python `str(i)` inside an
f-string). -/
def natSuffix (n : Nat) : String := String.mk (natDigitsAux (n + 1) n)

/-- Numeric value of a decimal digit string, used to prove `natSuffix`
injective. -/
def valDigits (l : List Char) : Nat := l.foldl (fun acc c => 10 * acc + charToDigit c) 0

/-- A Brightway exchange as read by builder.py: its amount as returned by
`_getAmountOrFormula` (`none` embeds the unevaluable `FunctionType`
amounts that the loop skips), the `input` and `output` activity keys, and
the optional `type` field (`exch.get("type")`). -/
structure Exchange where
  amount : Option Formula
  input : String × String
  output : String × String
  typ : Option String
deriving Repr, DecidableEq

/-- A Brightway activity as read by builder.py: its `(database, code)`
key, display name, `include_in_tree` flag, output amount
(`act.getOutputAmount()`) and exchange list. -/
structure Activity where
  key : String × String
  name : String
  includeInTree : Bool
  outputAmount : ℚ
  exchanges : List Exchange
deriving Repr, DecidableEq

/-- A value of the module-level `act_symbols` cache: the minted sympy
symbol (identified by its name) and the `to_compile` flag. -/
structure ActSymbol where
  symbol : String
  toCompile : Bool
deriving Repr, DecidableEq

/-- The module-level `act_symbols` dict of builder.py: an
insertion-ordered map from `(database, code)` keys to `ActSymbol`. -/
abbrev SymTable := List ((String × String) × ActSymbol)

/-- External collaborators of the builder, fixed for a run: the activity
database (`_getDb(db).get(code)`), the foreground classification
(`_isForeground`), the fixed formula parameters with their default
values (`_fixed_params()`), and the numeric impact of a background
proxy activity under a method (`_multiLCAWithCache`). -/
structure Env where
  db : String × String → Activity
  foreground : String → Bool
  fixedParams : List (String × ℚ)
  lca : String × String → String → ℚ

/-- Modelled from the spec: apparun's
`ImpactTreeNode.node_name_to_symbol_name`, a deterministic
name-to-identifier transform (slugification).  The concrete transform
(lower-casing, non-alphanumeric characters to underscores) stands for any
deterministic slugification; no claim depends on its details. -/
def node_name_to_symbol_name (name : String) : String :=
  String.mk (name.data.map (fun c => if c.isAlphanum then c.toLower else '_'))

/-- Candidate symbol names tried by `act_to_symbol`: the bare slug first,
then the slug with increasing decimal suffixes `1`, `2`, `3`, …. -/
def candidateSlug (base : String) (i : Nat) : String :=
  if i = 0 then base else base ++ natSuffix i

/-- The collision-avoidance loop of `act_to_symbol` (`while symbols(slug)
in ...`): try candidates in order until one is not yet used.  The fuel is
an embedding artifact; `freshSlug` supplies enough fuel for the loop to
always find a fresh candidate. -/
def freshSlugAux (base : String) (used : List String) : Nat → Nat → String
  | 0, i => candidateSlug base i
  | Nat.succ fuel, i =>
    if candidateSlug base i ∈ used then freshSlugAux base used fuel (i + 1)
    else candidateSlug base i

/-- First candidate slug not occurring among the used symbol names. -/
def freshSlug (base : String) (used : List String) : String :=
  freshSlugAux base used (used.length + 1) 0

/-- The symbol names currently registered in an `act_symbols` table
(`[act_symbol["symbol"] for act_symbol in act_symbols.values()]`). -/
def usedSymbols (t : SymTable) : List String := t.map (fun p => p.2.symbol)

/-- The inner `act_to_symbol` of `actToExpression`: memoized minting of a
symbol for an activity, keyed by `(database, code)`; on a cache miss the
activity is re-fetched from the database, its name is slugified and
suffixed until unique, and the new entry is appended.  Returns the
updated table and the symbol name. -/
def act_to_symbol (env : Env) (t : SymTable) (sub_act : Activity) (toCompile : Bool) :
    SymTable × String :=
  match assocFind t sub_act.key with
  | some entry => (t, entry.symbol)
  | none =>
    let act := env.db sub_act.key
    let base := node_name_to_symbol_name act.name
    let slug := freshSlug base (usedSymbols t)
    (t ++ [(sub_act.key, ActSymbol.mk slug toCompile)], slug)

/-- A sequence of registry requests (activity and `to_compile` flag),
processed in order; used to state registry properties over whole runs. -/
def runSymbols (env : Env) (t : SymTable) : List (Activity × Bool) → SymTable
  | [] => t
  | ab :: rest => runSymbols env (act_to_symbol env t ab.1 ab.2).1 rest

mutual
/-- Modelled from the spec: apparun's `ImpactTreeNode` — name, amount (as
supplied by the parent exchange), the raw pre-substitution formula
(`_raw_direct_impact`, `none` until set), the per-method resolved
formulas (`direct_impacts`), and the owned children.  The children are a
bespoke list type so that traversals are mutually structural. -/
inductive ImpactTreeNode where
  | node (name : String) (amount : Formula) (rawDirectImpact : Option Formula)
      (directImpacts : List (String × Formula)) (children : TreeList)
deriving Repr
/-- A list of owned child nodes of an `ImpactTreeNode`. -/
inductive TreeList where
  | nil
  | cons (t : ImpactTreeNode) (ts : TreeList)
deriving Repr
end

/-- Concatenation of child lists. -/
def TreeList.append : TreeList → TreeList → TreeList
  | TreeList.nil, l => l
  | TreeList.cons t ts, l => TreeList.cons t (ts.append l)

/-- Name of a tree node. -/
def nameOf : ImpactTreeNode → String
  | ImpactTreeNode.node n _ _ _ _ => n

/-- Amount of a tree node. -/
def amountOf : ImpactTreeNode → Formula
  | ImpactTreeNode.node _ a _ _ _ => a

/-- Raw direct-impact formula of a tree node. -/
def rawOf : ImpactTreeNode → Option Formula
  | ImpactTreeNode.node _ _ r _ _ => r

/-- Per-method resolved formulas of a tree node. -/
def impactsOf : ImpactTreeNode → List (String × Formula)
  | ImpactTreeNode.node _ _ _ d _ => d

/-- Children of a tree node. -/
def childrenOf : ImpactTreeNode → TreeList
  | ImpactTreeNode.node _ _ _ _ c => c

/-- A fresh tree node as created by `ImpactTreeNode(name=…, amount=…)` or
`new_child(name=…, amount=…)`. -/
def newNode (name : String) (amount : Formula) : ImpactTreeNode :=
  ImpactTreeNode.node name amount none [] TreeList.nil

/-- Store the raw direct-impact formula on a node
(`impact_model_tree_node._raw_direct_impact = expr`). -/
def setRaw : ImpactTreeNode → Formula → ImpactTreeNode
  | ImpactTreeNode.node n a _ d c, f => ImpactTreeNode.node n a (some f) d c

/-- Attach a fully built child to a node (the mutation performed by
`new_child` once the recursive call has filled the child in). -/
def addChild : ImpactTreeNode → ImpactTreeNode → ImpactTreeNode
  | ImpactTreeNode.node n a r d c, child =>
    ImpactTreeNode.node n a r d (c.append (TreeList.cons child TreeList.nil))

/-- Modelled from the spec: apparun's
`ImpactTreeNode.name_already_in_tree`, the cycle test of the walk.  The
builder threads the list of names of the tree nodes created so far
(root and tracked children) and the test is membership in that list. -/
def name_already_in_tree (treeNames : List String) (name : String) : Bool :=
  name ∈ treeNames

/-- The mutable state threaded through the recursive walk: the
module-global `act_symbols` table and the names of the tree nodes created
so far in the current build. -/
structure BState where
  actSymbols : SymTable
  treeNames : List String
deriving Repr, DecidableEq

/-- Errors raised by the builder.  `recursiveActivity` is the
`Exception("Found recursive activity: …")` of the cycle check;
`fuNotFound`/`fuAmbiguous` are the `BwDatabaseError`s of
`build_impact_model`; `methodNotFound`/`methodAmbiguous` are the
`BwMethodError`s of `to_bw_method`; `forbiddenParams` is the
`ValueError` for parameter/symbol collisions; `paramNotFoundOrAmbiguous`
is the error of `find_corresponding_parameter` with `must_find_one`;
`outOfFuel` is the embedding artifact for exhausted recursion fuel. -/
inductive BuildError where
  | recursiveActivity (name : String)
  | fuNotFound (fu : String)
  | fuAmbiguous (fu : String)
  | methodNotFound (m : String)
  | methodAmbiguous (m : String) (found : List String)
  | forbiddenParams (names : List String)
  | paramNotFoundOrAmbiguous (s : String)
  | outOfFuel
deriving Repr, DecidableEq

/-- The post-processing of `actToExpression` on the expression returned
by `rec_func`: a plain Python float is normalised by `simplify` to a
canonical number; otherwise the declared fixed parameters are replaced by
their default values (`_replace_fixed_params(expr, _fixed_params().values())`). -/
def finalizeExpr (env : Env) : Formula → Formula
  | Formula.pynum q => Formula.pynum q
  | Formula.sexpr e => Formula.sexpr (e.substNum env.fixedParams)

mutual
/-- The inner `rec_func` of `actToExpression`: a background activity
contributes its registry symbol; a foreground activity accumulates the
contributions of its exchanges and divides the total by its own output
amount. -/
def rec_func : Nat → Env → BState → Activity → ImpactTreeNode →
    Except BuildError (Formula × ImpactTreeNode × BState)
  | 0, _, _, _, _ => Except.error BuildError.outOfFuel
  | Nat.succ fuel, env, st, act, node =>
    if env.foreground act.key.1 then
      match processExchanges fuel env st node act.exchanges with
      | Except.error e => Except.error e
      | Except.ok (contribs, node2, st2) =>
        Except.ok
          (pyDiv (contribs.foldl pyAdd (Formula.pynum 0)) (Formula.pynum act.outputAmount),
            node2, st2)
    else
      Except.ok (Formula.sexpr (SExpr.sym (act_to_symbol env st.actSymbols act true).2), node,
        BState.mk (act_to_symbol env st.actSymbols act true).1 st.treeNames)

/-- The `for exch in act.exchanges()` loop of `rec_func`, returning the
list of the contributions `amount * act_expr * avoidedBurden` of the
non-skipped exchanges in order (the Python code sums them as it goes; the
original running sum is recovered as `foldl pyAdd 0`).  An exchange is
skipped when its amount is an unevaluable function (`none`) or when its
input equals its output; the avoided-burden sign is `-1` exactly for a
production-type exchange whose input differs from its output. -/
def processExchanges : Nat → Env → BState → ImpactTreeNode → List Exchange →
    Except BuildError (List Formula × ImpactTreeNode × BState)
  | 0, _, _, _, _ => Except.error BuildError.outOfFuel
  | Nat.succ _, _, st, node, [] => Except.ok ([], node, st)
  | Nat.succ fuel, env, st, node, exch :: rest =>
    match exch.amount with
    | none => processExchanges fuel env st node rest
    | some amount0 =>
      if exch.input = exch.output then processExchanges fuel env st node rest
      else
        match resolveSub fuel env st node exch.input amount0 with
        | Except.error e => Except.error e
        | Except.ok (amount1, actExpr, node1, st1) =>
          let avoided : ℚ :=
            if exch.typ = some "production" ∧ ¬ exch.input = exch.output then -1 else 1
          let contrib := pyMul (pyMul amount1 actExpr) (Formula.pynum avoided)
          match processExchanges fuel env st1 node1 rest with
          | Except.error e => Except.error e
          | Except.ok (cs, node2, st2) => Except.ok (contrib :: cs, node2, st2)
termination_by structural fuel _ _ _ _ => fuel

/-- Resolution of one exchange's target sub-activity inside the loop of
`rec_func` (builder.py lines 270–292): a background sub-activity becomes
its registry symbol; a foreground sub-activity first undergoes the cycle
check, then either becomes a tracked child node (contribution neutralised
to `1 * 0`) or is expanded inline into the current node.  Returns the
possibly overwritten amount, the sub-expression `act_expr`, and the
updated node and state.  Does not depend on the exchange's type field. -/
def resolveSub : Nat → Env → BState → ImpactTreeNode → String × String → Formula →
    Except BuildError (Formula × Formula × ImpactTreeNode × BState)
  | 0, _, _, _, _, _ => Except.error BuildError.outOfFuel
  | Nat.succ fuel, env, st, node, inp, amount0 =>
    let sub_act := env.db inp
    if env.foreground inp.1 then
      if name_already_in_tree st.treeNames sub_act.name then
        Except.error (BuildError.recursiveActivity sub_act.name)
      else
        if sub_act.includeInTree then
          match rec_func fuel env (BState.mk st.actSymbols (st.treeNames ++ [sub_act.name]))
              sub_act (newNode sub_act.name amount0) with
          | Except.error e => Except.error e
          | Except.ok (cexpr, childNode, st2) =>
            Except.ok (Formula.pynum 1, Formula.pynum 0,
              addChild node (setRaw childNode (finalizeExpr env cexpr)), st2)
        else
          match rec_func fuel env st sub_act node with
          | Except.error e => Except.error e
          | Except.ok (aexpr, node2, st2) => Except.ok (amount0, aexpr, node2, st2)
    else
      Except.ok (amount0,
        Formula.sexpr (SExpr.sym (act_to_symbol env st.actSymbols sub_act true).2), node,
        BState.mk (act_to_symbol env st.actSymbols sub_act true).1 st.treeNames)
termination_by structural fuel _ _ _ _ _ => fuel
end

/-- `ImpactModelBuilder.actToExpression`: run `rec_func` on the activity
and store the post-processed expression as the node's raw direct-impact
formula. -/
def actToExpression (fuel : Nat) (env : Env) (st : BState) (act : Activity)
    (node : ImpactTreeNode) : Except BuildError (ImpactTreeNode × BState) :=
  match rec_func fuel env st act node with
  | Except.error e => Except.error e
  | Except.ok (expr, node1, st1) => Except.ok (setRaw node1 (finalizeExpr env expr), st1)

/-- Modelled from the spec: a declared catalog parameter (apparun's
`ImpactModelParam`): a name, a numeric default, and whether it is an
enumerated parameter. -/
structure Param where
  name : String
  default : ℚ
  isEnum : Bool
deriving Repr, DecidableEq

/-- Modelled from the spec: the parameter catalog's
`find_corresponding_parameter(symbol, must_find_one=False)` — all
declared parameters whose name equals the symbol. -/
def findParams (catalog : List Param) (s : String) : List Param :=
  catalog.filter (fun p => p.name = s)

/-- Character-list prefix test, helper for `strContains`. -/
def listStartsWith : List Char → List Char → Bool
  | [], _ => true
  | _ :: _, [] => false
  | a :: as, b :: bs => a = b && listStartsWith as bs

/-- Character-list infix test, helper for `strContains`. -/
def listOccursIn (needle : List Char) : List Char → Bool
  | [] => listStartsWith needle []
  | b :: bs => listStartsWith needle (b :: bs) || listOccursIn needle bs

/-- Python's `in` on strings (`method_full_name in str(method)`):
substring containment. -/
def strContains (hay needle : String) : Bool :=
  listOccursIn needle.data hay.data

/-- `to_bw_method`: find the Brightway methods whose string representation
contains the requested full name; zero matches or more than one match is
a `BwMethodError`. -/
def to_bw_method (registry : List String) (mfn : String) : Except BuildError String :=
  let matching := registry.filter (fun m => strContains m mfn)
  if matching.length < 1 then Except.error (BuildError.methodNotFound mfn)
  else if matching.length > 1 then Except.error (BuildError.methodAmbiguous mfn matching)
  else Except.ok (matching.headD "")

/-- Error-propagating map over a list (the list comprehension
`[to_bw_method(MethodFullName[method]) for method in methods]`, which
re-raises the first error). -/
def mapExcept {α β : Type} (f : α → Except BuildError β) : List α → Except BuildError (List β)
  | [] => Except.ok []
  | a :: rest =>
    match f a with
    | Except.error e => Except.error e
    | Except.ok b =>
      match mapExcept f rest with
      | Except.error e => Except.error e
      | Except.ok bs => Except.ok (b :: bs)

/-- Order-preserving removal of duplicates, keeping first occurrences
(the `unique_used_parameters` accumulation loop). -/
def uniqueFirst {α : Type} [DecidableEq α] (l : List α) : List α :=
  l.foldl (fun acc p => if p ∈ acc then acc else acc ++ [p]) []

mutual
/-- Modelled from the spec: apparun's `unnested_descendants` — the node
itself together with all of its descendants, flattened in traversal
order. -/
def unnestedDescendants : ImpactTreeNode → List ImpactTreeNode
  | ImpactTreeNode.node n a r d cs =>
    ImpactTreeNode.node n a r d cs :: unnestedDescendantsList cs
/-- Flattening of a child list, children before later siblings. -/
def unnestedDescendantsList : TreeList → List ImpactTreeNode
  | TreeList.nil => []
  | TreeList.cons t ts => unnestedDescendants t ++ unnestedDescendantsList ts
end

/-- The free-symbol collection of `build_impact_tree_and_parameters`
(builder.py lines 117–135): names of the free symbols of every node's
raw formula, together with those of every node amount that is a sympy
expression; gathered as a Python `set` (duplicates removed). -/
def collectFreeSymbols (t : ImpactTreeNode) : List String :=
  (((unnestedDescendants t).map
      (fun n => (rawOf n).elim [] Formula.freeSymbols)).flatten ++
    ((unnestedDescendants t).map
      (fun n =>
        match amountOf n with
        | Formula.sexpr e => e.freeSymbols
        | Formula.pynum _ => [])).flatten).dedup

/-- The `forbidden_parameter_names` computation: for every registry
activity-symbol name, the names of the catalog parameters that coincide
with it. -/
def forbiddenOf (catalog : List Param) (actSyms : List String) : List String :=
  (actSyms.map (fun s => (findParams catalog s).map Param.name)).flatten

/-- Resolution of the expected parameter symbols against the catalog
(`find_corresponding_parameter` with `must_find_one=True`: zero or
multiple matches raise). -/
def resolveUsedParams (catalog : List Param) : List String → Except BuildError (List Param)
  | [] => Except.ok []
  | s :: rest =>
    match findParams catalog s with
    | [p] =>
      match resolveUsedParams catalog rest with
      | Except.error e => Except.error e
      | Except.ok ps => Except.ok (p :: ps)
    | _ => Except.error (BuildError.paramNotFoundOrAmbiguous s)

/-- The `pureTechActBySymbol` ordered dict: for every registry entry
marked `to_compile`, its symbol paired with the key of the proxy activity
created by `_createTechProxyForBio` (the proxy is identified by the
original activity key). -/
def pureTechOf (t : SymTable) : List (String × (String × String)) :=
  (t.filter (fun kv => kv.2.toCompile)).map (fun kv => (kv.2.symbol, kv.1))

/-- The substitution dict for one method: every compiled symbol mapped to
its cached LCA score `lcas[(act, method_bw)]`. -/
def methodSub (env : Env) (pureTech : List (String × (String × String))) (mbw : String) :
    List (String × ℚ) :=
  pureTech.map (fun p => (p.1, env.lca p.2 mbw))

mutual
/-- The final substitution loop (builder.py lines 201–211): for every
node and every requested method, the node's raw formula with the
compiled symbols replaced by their numeric scores, stored under the
method's key. -/
def applyImpacts (env : Env) (pureTech : List (String × (String × String)))
    (mpairs : List (String × String)) : ImpactTreeNode → ImpactTreeNode
  | ImpactTreeNode.node n a r _ cs =>
    ImpactTreeNode.node n a r
      (mpairs.map (fun mm =>
        (mm.1, ((r.getD (Formula.pynum 0)).substNum (methodSub env pureTech mm.2)))))
      (applyImpactsList env pureTech mpairs cs)
/-- `applyImpacts` mapped over a child list. -/
def applyImpactsList (env : Env) (pureTech : List (String × (String × String)))
    (mpairs : List (String × String)) : TreeList → TreeList
  | TreeList.nil => TreeList.nil
  | TreeList.cons t ts =>
    TreeList.cons (applyImpacts env pureTech mpairs t) (applyImpactsList env pureTech mpairs ts)
end

/-- Stages of `build_impact_tree_and_parameters` /
`build_impact_model`, recorded in order of completion so that "error X is
raised before stage Y" is expressible.  `backgroundResolved` marks the
`_multiLCAWithCache` invocation. -/
inductive Stage where
  | methodsResolved
  | treeExpanded
  | collisionChecked
  | paramsResolved
  | backgroundResolved
  | substituted
deriving Repr, DecidableEq

/-- Outcome of a build: the result (tree and used parameters, or the
raised error), the module-global `act_symbols` table after the call, and
the completed stages. -/
structure BuildOut where
  result : Except BuildError (ImpactTreeNode × List Param)
  table : SymTable
  trace : List Stage

/-- The root node `ImpactTreeNode(name=functional_unit_bw["name"],
amount=1)`. -/
def rootNode (fu : Activity) : ImpactTreeNode := newNode fu.name (Formula.pynum 1)

/-- `ImpactModelBuilder.build_impact_tree_and_parameters`: resolve the
methods, expand the functional unit into the tree, collect free symbols,
reject parameter/symbol collisions, resolve and deduplicate the used
parameters, resolve the background scores and substitute them per method.
The `act_symbols` table is passed in and returned (it is module-global in
the source); on an error raised before or during tree expansion the
incoming table is returned (the source leaves its partially updated
global in place there — no claim concerns the registry of a failed
build). -/
def build_impact_tree_and_parameters (fuel : Nat) (env : Env) (registry : List String)
    (catalog : List Param) (table : SymTable) (fu : Activity) (methods : List String) :
    BuildOut :=
  match mapExcept (to_bw_method registry) methods with
  | Except.error e => BuildOut.mk (Except.error e) table []
  | Except.ok methods_bw =>
    match actToExpression fuel env (BState.mk table [fu.name]) fu (rootNode fu) with
    | Except.error e => BuildOut.mk (Except.error e) table [Stage.methodsResolved]
    | Except.ok (tree, st1) =>
      let actSyms := usedSymbols st1.actSymbols
      let forb := forbiddenOf catalog actSyms
      if forb.length > 0 then
        BuildOut.mk (Except.error (BuildError.forbiddenParams forb)) st1.actSymbols
          [Stage.methodsResolved, Stage.treeExpanded]
      else
        let expected := (collectFreeSymbols tree).filter (fun s => !(actSyms.contains s))
        match resolveUsedParams catalog expected with
        | Except.error e =>
          BuildOut.mk (Except.error e) st1.actSymbols
            [Stage.methodsResolved, Stage.treeExpanded, Stage.collisionChecked]
        | Except.ok used =>
          let uniqueUsed := uniqueFirst used
          let pureTech := pureTechOf st1.actSymbols
          let tree2 := applyImpacts env pureTech (methods.zip methods_bw) tree
          BuildOut.mk (Except.ok (tree2, uniqueUsed)) st1.actSymbols
            [Stage.methodsResolved, Stage.treeExpanded, Stage.collisionChecked,
              Stage.paramsResolved, Stage.backgroundResolved, Stage.substituted]

/-- `ImpactModelBuilder.build_impact_model`: resolve the functional unit
by exact name match in the user database (zero or several matches raise a
`BwDatabaseError`), then build the tree and parameters. -/
def build_impact_model (fuel : Nat) (env : Env) (registry : List String)
    (catalog : List Param) (database : List Activity) (table : SymTable)
    (functional_unit : String) (methods : List String) : BuildOut :=
  let matching := database.filter (fun a => a.name = functional_unit)
  if matching.length < 1 then
    BuildOut.mk (Except.error (BuildError.fuNotFound functional_unit)) table []
  else if matching.length > 1 then
    BuildOut.mk (Except.error (BuildError.fuAmbiguous functional_unit)) table []
  else
    build_impact_tree_and_parameters fuel env registry catalog table
      (matching.headD (Activity.mk ("", "") "" false 1 [])) methods

/-- Lookup-style errors (the spec's `LookupError` kind): functional unit
or assessment method resolving to zero or several matches. -/
def BuildError.isLookup : BuildError → Bool
  | BuildError.fuNotFound _ => true
  | BuildError.fuAmbiguous _ => true
  | BuildError.methodNotFound _ => true
  | BuildError.methodAmbiguous _ _ => true
  | _ => false

/-- Concrete activity: a foreground functional unit with one exchange to
the background activity `("bg", "b1")`. -/
def actX1 : Activity :=
  Activity.mk ("fg", "x1") "X1" true 1
    [Exchange.mk (some (Formula.pynum 2)) ("bg", "b1") ("fg", "x1") (some "technosphere")]

/-- Concrete activity: a second functional unit, consuming the background
activity `("bg", "b2")`. -/
def actX2 : Activity :=
  Activity.mk ("fg", "x2") "X2" true 1
    [Exchange.mk (some (Formula.pynum 3)) ("bg", "b2") ("fg", "x2") (some "technosphere")]

/-- Concrete background activity named `a`. -/
def actB1 : Activity := Activity.mk ("bg", "b1") "a" false 1 []

/-- Concrete background activity with the same name `a` but a different
key, to exercise symbol-name collisions. -/
def actB2 : Activity := Activity.mk ("bg", "b2") "a" false 1 []

/-- Concrete foreground activity that consumes itself through a
non-production technosphere exchange (input equals output). -/
def actB : Activity :=
  Activity.mk ("fg", "b") "B" true 1
    [Exchange.mk (some (Formula.pynum 2)) ("fg", "b") ("fg", "b") (some "technosphere")]

/-- Concrete production-type exchange with differing input and output
(an avoided burden). -/
def exchProd : Exchange :=
  Exchange.mk (some (Formula.pynum 2)) ("bg", "b1") ("fg", "xp") (some "production")

/-- Concrete foreground activity holding the avoided-burden exchange. -/
def actXP : Activity := Activity.mk ("fg", "xp") "XP" true 1 [exchProd]

/-- Concrete exchange to a tracked foreground sub-activity. -/
def exchXC : Exchange :=
  Exchange.mk (some (Formula.pynum 5)) ("fg", "yc") ("fg", "xc") (some "technosphere")

/-- Concrete foreground activity with one tracked foreground child. -/
def actXC : Activity := Activity.mk ("fg", "xc") "XC" true 1 [exchXC]

/-- Concrete tracked (`include_in_tree`) foreground sub-activity. -/
def actYC : Activity := Activity.mk ("fg", "yc") "YC" true 1 []

/-- Concrete untracked (inline) foreground sub-activity. -/
def actYI : Activity := Activity.mk ("fg", "yi") "YI" false 1 []

/-- Concrete exchange to the untracked foreground sub-activity. -/
def exchXI : Exchange :=
  Exchange.mk (some (Formula.pynum 7)) ("fg", "yi") ("fg", "xi") (some "technosphere")

/-- Concrete foreground activity whose exchange amount is a formula over
the fixed parameter `p`. -/
def actXF : Activity :=
  Activity.mk ("fg", "xf") "XF" true 1
    [Exchange.mk (some (Formula.sexpr (SExpr.sym "p"))) ("bg", "b1") ("fg", "xf")
      (some "technosphere")]

/-- Concrete foreground activity consuming a background activity whose
derived symbol name collides with the parameter `p1`. -/
def actXQ : Activity :=
  Activity.mk ("fg", "xq") "XQ" true 1
    [Exchange.mk (some (Formula.pynum 2)) ("bg", "q") ("fg", "xq") (some "technosphere")]

/-- Concrete background activity named `p1`. -/
def actBQ : Activity := Activity.mk ("bg", "q") "p1" false 1 []

/-- Concrete environment for the self-consuming activity `actB`. -/
def envB : Env :=
  Env.mk (fun k => if k = ("fg", "b") then actB else Activity.mk ("", "") "" false 1 [])
    (fun d => d = "fg") [] (fun _ _ => 0)

/-- Concrete environment holding all example activities; the database
`fg` is foreground and the parameter `p` is fixed with default 3. -/
def envG : Env :=
  Env.mk
    (fun k =>
      if k = ("fg", "x1") then actX1
      else if k = ("fg", "x2") then actX2
      else if k = ("bg", "b1") then actB1
      else if k = ("bg", "b2") then actB2
      else if k = ("fg", "xp") then actXP
      else if k = ("fg", "xc") then actXC
      else if k = ("fg", "yc") then actYC
      else if k = ("fg", "yi") then actYI
      else if k = ("fg", "xf") then actXF
      else if k = ("fg", "xq") then actXQ
      else if k = ("bg", "q") then actBQ
      else Activity.mk ("", "") "" false 1 [])
    (fun d => d = "fg") [("p", 3)] (fun _ _ => 0)

/-- Concrete inline foreground activity `BI`, consuming `CI`; part of a
two-activity cycle through untracked activities only. -/
def actBI : Activity :=
  Activity.mk ("fg", "bi") "BI" false 1
    [Exchange.mk (some (Formula.pynum 1)) ("fg", "ci") ("fg", "bi") (some "technosphere")]

/-- Concrete inline foreground activity `CI`, consuming `BI` back. -/
def actCI : Activity :=
  Activity.mk ("fg", "ci") "CI" false 1
    [Exchange.mk (some (Formula.pynum 1)) ("fg", "bi") ("fg", "ci") (some "technosphere")]

/-- Concrete environment for the inline-only cycle `BI ↔ CI`. -/
def envI : Env :=
  Env.mk
    (fun k =>
      if k = ("fg", "bi") then actBI
      else if k = ("fg", "ci") then actCI
      else Activity.mk ("", "") "" false 1 [])
    (fun d => d = "fg") [] (fun _ _ => 0)

/-- Concrete catalog declaring the parameter `p1`, colliding with the
symbol of `actBQ`. -/
def catalogP : List Param := [Param.mk "p1" 1 false]

/-- Concrete method registry in which two entries contain `GWP`. -/
def registryR : List String := ["X GWP a", "X GWP b"]

/-- First build of the two-build leakage scenario, started on the empty
module-global registry. -/
def gBuild1 : BuildOut := build_impact_tree_and_parameters 10 envG [] [] [] actX1 []

/-- Second build, run after the first one on the module-global registry
the first one left behind (as the source does). -/
def gBuild2 : BuildOut :=
  build_impact_tree_and_parameters 10 envG [] [] gBuild1.table actX2 []

/-- The same second build run on a fresh registry instead. -/
def gBuild2Fresh : BuildOut := build_impact_tree_and_parameters 10 envG [] [] [] actX2 []

/-- Evaluation of a plain Python number. -/
theorem pynum_eval (ρ : String → ℚ) (q : ℚ) : Formula.eval ρ (Formula.pynum q) = q := rfl

/-- Evaluation is additive over `pyAdd`. -/
theorem pyAdd_eval (ρ : String → ℚ) (a b : Formula) :
    (pyAdd a b).eval ρ = a.eval ρ + b.eval ρ := by
  cases a <;> cases b <;> simp [pyAdd, Formula.eval, Formula.toSExpr, SExpr.eval]

/-- Evaluation is multiplicative over `pyMul`. -/
theorem pyMul_eval (ρ : String → ℚ) (a b : Formula) :
    (pyMul a b).eval ρ = a.eval ρ * b.eval ρ := by
  cases a <;> cases b <;> simp [pyMul, Formula.eval, Formula.toSExpr, SExpr.eval]

/-- Evaluation commutes with `pyDiv`. -/
theorem pyDiv_eval (ρ : String → ℚ) (a b : Formula) :
    (pyDiv a b).eval ρ = a.eval ρ / b.eval ρ := by
  cases a <;> cases b <;> simp [pyDiv, Formula.eval, Formula.toSExpr, SExpr.eval]

/-- The running sum of the exchange loop evaluates to the sum of the
evaluated contributions. -/
theorem foldl_pyAdd_eval (ρ : String → ℚ) :
    ∀ (l : List Formula) (a : Formula),
      (l.foldl pyAdd a).eval ρ = a.eval ρ + (l.map (Formula.eval ρ)).sum := by
  intro l
  induction l with
  | nil => intro a; simp
  | cons x xs ih =>
    intro a
    simp only [List.foldl_cons, List.map_cons, List.sum_cons]
    rw [ih, pyAdd_eval]
    ring

/-- A symbol is free in a substituted expression exactly when it was free
before and is not assigned by the substitution. -/
theorem substNum_freeSymbols (σ : List (String × ℚ)) :
    ∀ (e : SExpr) (x : String),
      x ∈ (e.substNum σ).freeSymbols ↔ x ∈ e.freeSymbols ∧ assocFind σ x = none := by
  intro e
  induction e with
  | num q => intro x; simp [SExpr.substNum, SExpr.freeSymbols]
  | sym s =>
    intro x
    cases h : assocFind σ s with
    | some v =>
      simp only [SExpr.substNum, h, SExpr.freeSymbols]
      constructor
      · intro hx; cases hx
      · rintro ⟨hx, hnone⟩
        rw [List.mem_singleton] at hx
        subst hx
        rw [h] at hnone
        cases hnone
    | none =>
      simp only [SExpr.substNum, h, SExpr.freeSymbols]
      constructor
      · intro hx
        refine ⟨hx, ?_⟩
        rw [List.mem_singleton] at hx
        subst hx
        exact h
      · exact fun hx => hx.1
  | add a b iha ihb =>
    intro x
    simp only [SExpr.substNum, SExpr.freeSymbols, List.mem_append, iha, ihb]
    tauto
  | mul a b iha ihb =>
    intro x
    simp only [SExpr.substNum, SExpr.freeSymbols, List.mem_append, iha, ihb]
    tauto
  | div a b iha ihb =>
    intro x
    simp only [SExpr.substNum, SExpr.freeSymbols, List.mem_append, iha, ihb]
    tauto

/-- Substituting assigned symbols by values consistent with the
assignment does not change the evaluation. -/
theorem substNum_eval (σ : List (String × ℚ)) (ρ : String → ℚ)
    (hρ : ∀ n v, assocFind σ n = some v → ρ n = v) :
    ∀ e : SExpr, (e.substNum σ).eval ρ = e.eval ρ := by
  intro e
  induction e with
  | num q => rfl
  | sym s =>
    cases h : assocFind σ s with
    | some v => simp only [SExpr.substNum, h, SExpr.eval]; exact (hρ s v h).symm
    | none => simp only [SExpr.substNum, h]
  | add a b iha ihb => simp only [SExpr.substNum, SExpr.eval, iha, ihb]
  | mul a b iha ihb => simp only [SExpr.substNum, SExpr.eval, iha, ihb]
  | div a b iha ihb => simp only [SExpr.substNum, SExpr.eval, iha, ihb]

/-- `charToDigit` inverts `digitChar` on digit values. -/
theorem charToDigit_digitChar (d : Nat) (hd : d < 10) : charToDigit (digitChar d) = d := by
  interval_cases d <;> rfl

/-- Appending one digit multiplies the value by ten and adds the digit. -/
theorem valDigits_append (l : List Char) (c : Char) :
    valDigits (l ++ [c]) = 10 * valDigits l + charToDigit c := by
  simp [valDigits, List.foldl_append]

/-- The decimal digits of `n` evaluate back to `n` (round trip, for any
sufficient fuel). -/
theorem valDigits_natDigitsAux : ∀ (fuel n : Nat), n < fuel →
    valDigits (natDigitsAux fuel n) = n := by
  intro fuel
  induction fuel with
  | zero => intro n h; omega
  | succ fuel ih =>
    intro n h
    by_cases h10 : n < 10
    · simp only [natDigitsAux, if_pos h10, valDigits, List.foldl]
      simpa using charToDigit_digitChar n h10
    · simp only [natDigitsAux, if_neg h10]
      rw [valDigits_append, ih (n / 10) (by omega), charToDigit_digitChar (n % 10) (by omega)]
      omega

/-- The decimal rendering of a natural number is never empty. -/
theorem natSuffix_data_ne_nil (n : Nat) : (natSuffix n).data ≠ [] := by
  show natDigitsAux (n + 1) n ≠ []
  rw [natDigitsAux]
  split <;> simp

/-- Decimal renderings of distinct numbers differ. -/
theorem natSuffix_inj {m n : Nat} (h : natSuffix m = natSuffix n) : m = n := by
  have hdata : natDigitsAux (m + 1) m = natDigitsAux (n + 1) n := congrArg String.data h
  have := congrArg valDigits hdata
  rwa [valDigits_natDigitsAux (m + 1) m (by omega),
    valDigits_natDigitsAux (n + 1) n (by omega)] at this

/-- The candidate slugs `base, base1, base2, …` are pairwise distinct. -/
theorem candidateSlug_inj (base : String) :
    ∀ i j : Nat, candidateSlug base i = candidateSlug base j → i = j := by
  have hlen : ∀ k : Nat, k ≠ 0 → (candidateSlug base k).data = base.data ++ (natSuffix k).data := by
    intro k hk
    simp only [candidateSlug, if_neg hk]
    rfl
  intro i j h
  by_cases hi : i = 0 <;> by_cases hj : j = 0
  · omega
  · exfalso
    rw [show candidateSlug base i = base from by simp [candidateSlug, hi]] at h
    have hd : base.data = base.data ++ (natSuffix j).data := by
      rw [← hlen j hj, ← h]
    have := congrArg List.length hd
    simp at this
    exact natSuffix_data_ne_nil j (List.eq_nil_of_length_eq_zero this)
  · exfalso
    rw [show candidateSlug base j = base from by simp [candidateSlug, hj]] at h
    have hd : base.data ++ (natSuffix i).data = base.data := by
      rw [← hlen i hi, h]
    have := congrArg List.length hd
    simp at this
    exact natSuffix_data_ne_nil i (List.eq_nil_of_length_eq_zero this)
  · have hd : base.data ++ (natSuffix i).data = base.data ++ (natSuffix j).data := by
      rw [← hlen i hi, ← hlen j hj, h]
    have hsfx : (natSuffix i).data = (natSuffix j).data := List.append_cancel_left hd
    exact natSuffix_inj (String.ext hsfx)

/-- Among the first `used.length + 1` candidate slugs at least one does
not occur in `used` (pigeonhole). -/
theorem exists_fresh_candidate (base : String) (used : List String) :
    ∃ j, j ≤ used.length ∧ candidateSlug base j ∉ used := by
  by_contra hcon
  push_neg at hcon
  have hsub : ∀ x ∈ (List.range (used.length + 1)).map (candidateSlug base), x ∈ used := by
    intro x hx
    rw [List.mem_map] at hx
    obtain ⟨j, hj, rfl⟩ := hx
    rw [List.mem_range] at hj
    exact hcon j (by omega)
  have hnd : ((List.range (used.length + 1)).map (candidateSlug base)).Nodup :=
    List.Nodup.map_on (fun a _ b _ hab => candidateSlug_inj base a b hab) (List.nodup_range _)
  have h1 : ((List.range (used.length + 1)).map (candidateSlug base)).toFinset.card
      = used.length + 1 := by
    rw [List.toFinset_card_of_nodup hnd]
    simp
  have h2 : ((List.range (used.length + 1)).map (candidateSlug base)).toFinset ⊆
      used.toFinset := by
    intro x hx
    rw [List.mem_toFinset] at hx ⊢
    exact hsub x hx
  have h3 := Finset.card_le_card h2
  have h4 := used.toFinset_card_le
  omega

/-- The collision loop returns the first candidate (at or after the start
index) that is not already used, provided a fresh candidate exists within
the remaining fuel. -/
theorem freshSlugAux_spec (base : String) (used : List String) :
    ∀ (fuel i : Nat), (∃ j, i ≤ j ∧ j < i + fuel ∧ candidateSlug base j ∉ used) →
      ∃ m, i ≤ m ∧ freshSlugAux base used fuel i = candidateSlug base m ∧
        candidateSlug base m ∉ used ∧ ∀ k, i ≤ k → k < m → candidateSlug base k ∈ used := by
  intro fuel
  induction fuel with
  | zero =>
    rintro i ⟨j, hij, hlt, _⟩
    omega
  | succ fuel ih =>
    rintro i ⟨j, hij, hlt, hmem⟩
    by_cases hc : candidateSlug base i ∈ used
    · have hji : i ≠ j := by
        rintro rfl
        exact hmem hc
      obtain ⟨m, him, heq, hfresh, hall⟩ :=
        ih (i + 1) ⟨j, by omega, by omega, hmem⟩
      refine ⟨m, by omega, ?_, hfresh, ?_⟩
      · simp only [freshSlugAux, if_pos hc]
        exact heq
      · intro k hik hkm
        rcases Nat.eq_or_lt_of_le hik with rfl | hik1
        · exact hc
        · exact hall k hik1 hkm
    · exact ⟨i, le_refl i, by simp only [freshSlugAux, if_neg hc], hc, fun k h1 h2 => by omega⟩

/-- `freshSlug` returns the first unused candidate: it is fresh, and all
earlier candidates were taken. -/
theorem freshSlug_spec (base : String) (used : List String) :
    ∃ m, freshSlug base used = candidateSlug base m ∧ candidateSlug base m ∉ used ∧
      ∀ k, k < m → candidateSlug base k ∈ used := by
  obtain ⟨j, hj, hfresh⟩ := exists_fresh_candidate base used
  obtain ⟨m, _, heq, hf, hall⟩ :=
    freshSlugAux_spec base used (used.length + 1) 0 ⟨j, by omega, by omega, hfresh⟩
  exact ⟨m, heq, hf, fun k hk => hall k (by omega) hk⟩

/-- An association present in a table is still found after appending
entries on the right. -/
theorem assocFind_append_some {α : Type} [DecidableEq α] {β : Type}
    {t : List (α × β)} {k : α} {v : β} (l : List (α × β)) (h : assocFind t k = some v) :
    assocFind (t ++ l) k = some v := by
  induction t with
  | nil => cases h
  | cons p rest ih =>
    by_cases hp : p.1 = k
    · simpa [assocFind, hp] using h
    · rw [assocFind, if_neg hp] at h
      simpa [assocFind, hp] using ih h

/-- Looking up the key of a newly appended entry after a miss finds the
new entry. -/
theorem assocFind_append_new {α : Type} [DecidableEq α] {β : Type}
    {t : List (α × β)} {k : α} (v : β) (h : assocFind t k = none) :
    assocFind (t ++ [(k, v)]) k = some v := by
  induction t with
  | nil => simp [assocFind]
  | cons p rest ih =>
    by_cases hp : p.1 = k
    · rw [assocFind, if_pos hp] at h
      cases h
    · rw [assocFind, if_neg hp] at h
      simpa [assocFind, hp] using ih h

/-- Registered symbol names after appending an entry. -/
theorem usedSymbols_append (t : SymTable) (k : String × String) (e : ActSymbol) :
    usedSymbols (t ++ [(k, e)]) = usedSymbols t ++ [e.symbol] := by
  simp [usedSymbols]

/-- A second `act_to_symbol` call with the same activity key returns the
table and symbol of the first call unchanged (memoization). -/
theorem act_to_symbol_idem (env : Env) (t : SymTable) (a : Activity) (c c' : Bool) :
    act_to_symbol env (act_to_symbol env t a c).1 a c' =
      ((act_to_symbol env t a c).1, (act_to_symbol env t a c).2) := by
  cases h : assocFind t a.key with
  | some entry => simp [act_to_symbol, h]
  | none =>
    have h2 := assocFind_append_new
      (ActSymbol.mk (freshSlug (node_name_to_symbol_name (env.db a.key).name) (usedSymbols t)) c) h
    simp [act_to_symbol, h, h2]

/-- On a cache miss the minted symbol is the first free candidate slug:
some candidate index whose slug is unused while all smaller candidate
slugs are taken. -/
theorem act_to_symbol_fresh (env : Env) (t : SymTable) (a : Activity) (c : Bool)
    (h : assocFind t a.key = none) :
    ∃ i, (act_to_symbol env t a c).2 =
        candidateSlug (node_name_to_symbol_name (env.db a.key).name) i ∧
      (act_to_symbol env t a c).2 ∉ usedSymbols t ∧
      ∀ j, j < i →
        candidateSlug (node_name_to_symbol_name (env.db a.key).name) j ∈ usedSymbols t := by
  obtain ⟨m, heq, hf, hall⟩ :=
    freshSlug_spec (node_name_to_symbol_name (env.db a.key).name) (usedSymbols t)
  refine ⟨m, ?_, ?_, hall⟩
  · simp [act_to_symbol, h, heq]
  · simpa [act_to_symbol, h, heq] using hf

/-- `act_to_symbol` never modifies or removes existing registry entries. -/
theorem act_to_symbol_preserves (env : Env) (t : SymTable) (a : Activity) (c : Bool)
    (k : String × String) (v : ActSymbol) (h : assocFind t k = some v) :
    assocFind (act_to_symbol env t a c).1 k = some v := by
  cases hc : assocFind t a.key with
  | some entry => simpa [act_to_symbol, hc] using h
  | none => simpa [act_to_symbol, hc] using assocFind_append_some _ h

/-- `act_to_symbol` preserves pairwise distinctness of the registered
symbol names. -/
theorem act_to_symbol_nodup (env : Env) (t : SymTable) (a : Activity) (c : Bool)
    (h : (usedSymbols t).Nodup) : (usedSymbols (act_to_symbol env t a c).1).Nodup := by
  cases hc : assocFind t a.key with
  | some entry => simpa [act_to_symbol, hc] using h
  | none =>
    obtain ⟨m, heq, hf, _⟩ :=
      freshSlug_spec (node_name_to_symbol_name (env.db a.key).name) (usedSymbols t)
    simp only [act_to_symbol, hc]
    rw [usedSymbols_append]
    simp only [List.nodup_append, List.nodup_cons, List.nodup_nil]
    refine ⟨h, by simp, ?_⟩
    intro x hx
    simp only [List.mem_singleton]
    rintro rfl
    rw [heq] at hx
    exact hf hx

/-- Processing any sequence of registry requests preserves pairwise
distinctness of the registered symbol names. -/
theorem runSymbols_nodup (env : Env) :
    ∀ (acts : List (Activity × Bool)) (t : SymTable),
      (usedSymbols t).Nodup → (usedSymbols (runSymbols env t acts)).Nodup := by
  intro acts
  induction acts with
  | nil => intro t h; exact h
  | cons ab rest ih =>
    intro t h
    exact ih _ (act_to_symbol_nodup env t ab.1 ab.2 h)

/-- Processing any sequence of registry requests preserves existing
entries unchanged. -/
theorem runSymbols_preserves (env : Env) :
    ∀ (acts : List (Activity × Bool)) (t : SymTable) (k : String × String) (v : ActSymbol),
      assocFind t k = some v → assocFind (runSymbols env t acts) k = some v := by
  intro acts
  induction acts with
  | nil => intro t k v h; exact h
  | cons ab rest ih =>
    intro t k v h
    exact ih _ k v (act_to_symbol_preserves env t ab.1 ab.2 k v h)

/-- `addChild` does not change the node's name. -/
theorem addChild_name (n c : ImpactTreeNode) : nameOf (addChild n c) = nameOf n := by
  cases n; rfl

/-- `addChild` does not change the node's amount. -/
theorem addChild_amount (n c : ImpactTreeNode) : amountOf (addChild n c) = amountOf n := by
  cases n; rfl

/-- `addChild` does not change the node's raw formula. -/
theorem addChild_raw (n c : ImpactTreeNode) : rawOf (addChild n c) = rawOf n := by
  cases n; rfl

/-- Invariants of one successful step of the recursive walk, at every
fuel: the walk only ever appends children to the node it works on (name,
amount and raw formula are untouched), and the `act_symbols` registry is
append-only (existing entries are never modified or removed). -/
theorem builder_invariants : ∀ fuel : Nat,
    (∀ env st act node e n2 st2, rec_func fuel env st act node = Except.ok (e, n2, st2) →
      nameOf n2 = nameOf node ∧ amountOf n2 = amountOf node ∧ rawOf n2 = rawOf node ∧
      ∀ k v, assocFind st.actSymbols k = some v → assocFind st2.actSymbols k = some v) ∧
    (∀ env st node exchs cs n2 st2,
      processExchanges fuel env st node exchs = Except.ok (cs, n2, st2) →
      nameOf n2 = nameOf node ∧ amountOf n2 = amountOf node ∧ rawOf n2 = rawOf node ∧
      ∀ k v, assocFind st.actSymbols k = some v → assocFind st2.actSymbols k = some v) ∧
    (∀ env st node inp a0 a1 ae n2 st2,
      resolveSub fuel env st node inp a0 = Except.ok (a1, ae, n2, st2) →
      nameOf n2 = nameOf node ∧ amountOf n2 = amountOf node ∧ rawOf n2 = rawOf node ∧
      ∀ k v, assocFind st.actSymbols k = some v → assocFind st2.actSymbols k = some v) := by
  intro fuel
  induction fuel with
  | zero =>
    refine ⟨?_, ?_, ?_⟩
    · intro env st act node e n2 st2 h
      simp [rec_func] at h
    · intro env st node exchs cs n2 st2 h
      simp [processExchanges] at h
    · intro env st node inp a0 a1 ae n2 st2 h
      simp [resolveSub] at h
  | succ fuel ih =>
    obtain ⟨ihr, ihp, ihs⟩ := ih
    refine ⟨?_, ?_, ?_⟩
    · -- rec_func
      intro env st act node e n2 st2 h
      rw [rec_func] at h
      cases hf : env.foreground act.key.1 with
      | true =>
        rw [hf] at h
        simp only [if_true] at h
        cases hpe : processExchanges fuel env st node act.exchanges with
        | error er => rw [hpe] at h; cases h
        | ok r =>
          obtain ⟨contribs, node2, st2'⟩ := r
          rw [hpe] at h
          simp only [Except.ok.injEq, Prod.mk.injEq] at h
          obtain ⟨-, hn, hst⟩ := h
          rw [← hn, ← hst]
          exact ihp env st node act.exchanges contribs node2 st2' hpe
      | false =>
        rw [hf] at h
        simp only [Bool.false_eq_true, if_false, Except.ok.injEq, Prod.mk.injEq] at h
        obtain ⟨-, hn, hst⟩ := h
        rw [← hn, ← hst]
        refine ⟨rfl, rfl, rfl, ?_⟩
        intro k v hv
        exact act_to_symbol_preserves env st.actSymbols act true k v hv
    · -- processExchanges
      intro env st node exchs cs n2 st2 h
      cases exchs with
      | nil =>
        rw [processExchanges] at h
        simp only [Except.ok.injEq, Prod.mk.injEq] at h
        obtain ⟨-, hn, hst⟩ := h
        rw [← hn, ← hst]
        exact ⟨rfl, rfl, rfl, fun k v hv => hv⟩
      | cons exch rest =>
        rw [processExchanges] at h
        cases ham : exch.amount with
        | none =>
          rw [ham] at h
          dsimp only at h
          exact ihp env st node rest cs n2 st2 h
        | some amount0 =>
          rw [ham] at h
          dsimp only at h
          by_cases hio : exch.input = exch.output
          · rw [if_pos hio] at h
            exact ihp env st node rest cs n2 st2 h
          · rw [if_neg hio] at h
            cases hrs : resolveSub fuel env st node exch.input amount0 with
            | error er => rw [hrs] at h; cases h
            | ok r =>
              obtain ⟨a1, ae, node1, st1⟩ := r
              rw [hrs] at h
              dsimp only at h
              cases hpe : processExchanges fuel env st1 node1 rest with
              | error er => rw [hpe] at h; cases h
              | ok r2 =>
                obtain ⟨cs', node2', st2'⟩ := r2
                rw [hpe] at h
                simp only [Except.ok.injEq, Prod.mk.injEq] at h
                obtain ⟨-, hn, hst⟩ := h
                rw [← hn, ← hst]
                obtain ⟨hn1, ha1, hr1, hm1⟩ :=
                  ihs env st node exch.input amount0 a1 ae node1 st1 hrs
                obtain ⟨hn2, ha2, hr2, hm2⟩ := ihp env st1 node1 rest cs' node2' st2' hpe
                exact ⟨hn2.trans hn1, ha2.trans ha1, hr2.trans hr1,
                  fun k v hv => hm2 k v (hm1 k v hv)⟩
    · -- resolveSub
      intro env st node inp a0 a1 ae n2 st2 h
      rw [resolveSub] at h
      cases hf : env.foreground inp.1 with
      | true =>
        rw [hf] at h
        simp only [if_true] at h
        cases hcy : name_already_in_tree st.treeNames (env.db inp).name with
        | true =>
          rw [hcy] at h
          simp only [if_true] at h
          cases h
        | false =>
          rw [hcy] at h
          simp only [Bool.false_eq_true, if_false] at h
          cases hit : (env.db inp).includeInTree with
          | true =>
            rw [hit] at h
            simp only [if_true] at h
            cases hrf : rec_func fuel env
                (BState.mk st.actSymbols (st.treeNames ++ [(env.db inp).name]))
                (env.db inp) (newNode (env.db inp).name a0) with
            | error er => rw [hrf] at h; cases h
            | ok r =>
              obtain ⟨cexpr, childNode, st2'⟩ := r
              rw [hrf] at h
              simp only [Except.ok.injEq, Prod.mk.injEq] at h
              obtain ⟨-, -, hn, hst⟩ := h
              rw [← hn, ← hst]
              obtain ⟨-, -, -, hm⟩ := ihr env
                (BState.mk st.actSymbols (st.treeNames ++ [(env.db inp).name]))
                (env.db inp) (newNode (env.db inp).name a0) cexpr childNode st2' hrf
              exact ⟨addChild_name _ _, addChild_amount _ _, addChild_raw _ _,
                fun k v hv => hm k v hv⟩
          | false =>
            rw [hit] at h
            simp only [Bool.false_eq_true, if_false] at h
            cases hrf : rec_func fuel env st (env.db inp) node with
            | error er => rw [hrf] at h; cases h
            | ok r =>
              obtain ⟨aexpr, node2', st2'⟩ := r
              rw [hrf] at h
              simp only [Except.ok.injEq, Prod.mk.injEq] at h
              obtain ⟨-, -, hn, hst⟩ := h
              rw [← hn, ← hst]
              exact ihr env st (env.db inp) node aexpr node2' st2' hrf
      | false =>
        rw [hf] at h
        simp only [Bool.false_eq_true, if_false, Except.ok.injEq, Prod.mk.injEq] at h
        obtain ⟨-, -, hn, hst⟩ := h
        rw [← hn, ← hst]
        refine ⟨rfl, rfl, rfl, ?_⟩
        intro k v hv
        exact act_to_symbol_preserves env st.actSymbols (env.db inp) true k v hv

/-- `setRaw` does not change the node's name. -/
theorem setRaw_name (n : ImpactTreeNode) (f : Formula) : nameOf (setRaw n f) = nameOf n := by
  cases n; rfl

/-- `setRaw` does not change the node's amount. -/
theorem setRaw_amount (n : ImpactTreeNode) (f : Formula) : amountOf (setRaw n f) = amountOf n := by
  cases n; rfl

/-- `setRaw` stores exactly the given raw formula. -/
theorem setRaw_raw (n : ImpactTreeNode) (f : Formula) : rawOf (setRaw n f) = some f := by
  cases n; rfl

/-- `addChild` appends the child at the end of the children. -/
theorem addChild_children (n c : ImpactTreeNode) :
    childrenOf (addChild n c) = (childrenOf n).append (TreeList.cons c TreeList.nil) := by
  cases n; rfl

/-- A successful `actToExpression` is a successful `rec_func` whose
post-processed expression is stored on the node. -/
theorem actToExpression_ok (fuel : Nat) (env : Env) (st : BState) (act : Activity)
    (node tree : ImpactTreeNode) (st1 : BState)
    (h : actToExpression fuel env st act node = Except.ok (tree, st1)) :
    ∃ e n1, rec_func fuel env st act node = Except.ok (e, n1, st1) ∧
      tree = setRaw n1 (finalizeExpr env e) := by
  unfold actToExpression at h
  cases hrf : rec_func fuel env st act node with
  | error er => rw [hrf] at h; cases h
  | ok r =>
    obtain ⟨e, n1, st1'⟩ := r
    rw [hrf] at h
    simp only [Except.ok.injEq, Prod.mk.injEq] at h
    obtain ⟨ht, hst⟩ := h
    rw [← hst]
    exact ⟨e, n1, rfl, ht.symm⟩

/-- Claim C3: for every foreground activity with output amount `k`, a
successful expansion returns exactly the loop's accumulated total divided
by `k`: the returned expression is (syntactically and in value) the sum
of the non-skipped exchange contributions divided by the activity's own
output amount. -/
theorem claim_c3 (fuel : Nat) (env : Env) (st : BState) (act : Activity)
    (node : ImpactTreeNode) (e : Formula) (n2 : ImpactTreeNode) (st2 : BState)
    (hfg : env.foreground act.key.1 = true)
    (h : rec_func (Nat.succ fuel) env st act node = Except.ok (e, n2, st2))
    (ρ : String → ℚ) :
    ∃ contribs, processExchanges fuel env st node act.exchanges = Except.ok (contribs, n2, st2) ∧
      e = pyDiv (contribs.foldl pyAdd (Formula.pynum 0)) (Formula.pynum act.outputAmount) ∧
      Formula.eval ρ e = (contribs.map (Formula.eval ρ)).sum / act.outputAmount := by
  rw [rec_func, hfg] at h
  simp only [if_true] at h
  cases hpe : processExchanges fuel env st node act.exchanges with
  | error er => rw [hpe] at h; cases h
  | ok r =>
    obtain ⟨contribs, node2, st2'⟩ := r
    rw [hpe] at h
    simp only [Except.ok.injEq, Prod.mk.injEq] at h
    obtain ⟨he, hn, hst⟩ := h
    refine ⟨contribs, by rw [hn, hst], he.symm, ?_⟩
    rw [← he, pyDiv_eval, foldl_pyAdd_eval]
    simp [Formula.eval]

/-- Claim C4: inside the exchange loop, a production-type exchange with
differing input and output contributes `amount * act_expr * (-1)`, while
the same exchange with any non-production type contributes
`amount * act_expr * 1`; the two contributions are negatives of each
other in value. -/
theorem claim_c4 (fuel : Nat) (env : Env) (st : BState) (node : ImpactTreeNode)
    (exch : Exchange) (rest : List Exchange) (a0 a1 ae : Formula)
    (node1 : ImpactTreeNode) (st1 : BState) (t' : Option String)
    (cs cs2 : List Formula) (n2 n3 : ImpactTreeNode) (st2 st3 : BState) (ρ : String → ℚ)
    (hamt : exch.amount = some a0)
    (hio : ¬ exch.input = exch.output)
    (hprod : exch.typ = some "production")
    (ht' : ¬ t' = some "production")
    (hres : resolveSub fuel env st node exch.input a0 = Except.ok (a1, ae, node1, st1))
    (hrun1 : processExchanges (Nat.succ fuel) env st node (exch :: rest) =
      Except.ok (cs, n2, st2))
    (hrun2 : processExchanges (Nat.succ fuel) env st node
      (Exchange.mk (some a0) exch.input exch.output t' :: rest) = Except.ok (cs2, n3, st3)) :
    ∃ cs' cs2',
      cs = pyMul (pyMul a1 ae) (Formula.pynum (-1)) :: cs' ∧
      cs2 = pyMul (pyMul a1 ae) (Formula.pynum 1) :: cs2' ∧
      Formula.eval ρ (pyMul (pyMul a1 ae) (Formula.pynum (-1))) =
        -(Formula.eval ρ a1 * Formula.eval ρ ae) ∧
      Formula.eval ρ (pyMul (pyMul a1 ae) (Formula.pynum 1)) =
        Formula.eval ρ a1 * Formula.eval ρ ae ∧
      Formula.eval ρ (pyMul (pyMul a1 ae) (Formula.pynum 1)) =
        -(Formula.eval ρ (pyMul (pyMul a1 ae) (Formula.pynum (-1)))) := by
  rw [processExchanges] at hrun1
  simp only [hamt, if_neg hio, hres] at hrun1
  rw [if_pos ⟨hprod, hio⟩] at hrun1
  rw [processExchanges] at hrun2
  simp only [if_neg hio, hres] at hrun2
  rw [if_neg (fun hcon => ht' hcon.1)] at hrun2
  cases hpe : processExchanges fuel env st1 node1 rest with
  | error er => rw [hpe] at hrun1; cases hrun1
  | ok r =>
    obtain ⟨csa, nn, ss⟩ := r
    rw [hpe] at hrun1 hrun2
    simp only [Except.ok.injEq, Prod.mk.injEq] at hrun1 hrun2
    refine ⟨csa, csa, hrun1.1.symm, hrun2.1.symm, ?_, ?_, ?_⟩ <;>
      simp only [pyMul_eval, pynum_eval] <;> ring

/-- Claim C5: an exchange to a tracked foreground sub-activity (no cycle
detected) creates a child node carrying the sub-activity's name and the
exchange amount, recurses into it, and contributes `1 * 0 * sign = 0` to
the parent's own formula. -/
theorem claim_c5 (fuel : Nat) (env : Env) (st : BState) (node : ImpactTreeNode)
    (inp : String × String) (a0 ce : Formula) (cn : ImpactTreeNode) (st2 : BState)
    (exch : Exchange) (rest : List Exchange) (cs : List Formula) (n3 : ImpactTreeNode)
    (st3 : BState) (ρ : String → ℚ)
    (hfg : env.foreground inp.1 = true)
    (hcy : name_already_in_tree st.treeNames (env.db inp).name = false)
    (hit : (env.db inp).includeInTree = true)
    (hrec : rec_func fuel env (BState.mk st.actSymbols (st.treeNames ++ [(env.db inp).name]))
      (env.db inp) (newNode (env.db inp).name a0) = Except.ok (ce, cn, st2))
    (hamt : exch.amount = some a0)
    (hinp : exch.input = inp)
    (hio : ¬ exch.input = exch.output)
    (hrun : processExchanges (Nat.succ (Nat.succ fuel)) env st node (exch :: rest) =
      Except.ok (cs, n3, st3)) :
    resolveSub (Nat.succ fuel) env st node inp a0 =
      Except.ok (Formula.pynum 1, Formula.pynum 0,
        addChild node (setRaw cn (finalizeExpr env ce)), st2) ∧
    nameOf (setRaw cn (finalizeExpr env ce)) = (env.db inp).name ∧
    amountOf (setRaw cn (finalizeExpr env ce)) = a0 ∧
    rawOf (setRaw cn (finalizeExpr env ce)) = some (finalizeExpr env ce) ∧
    childrenOf (addChild node (setRaw cn (finalizeExpr env ce))) =
      (childrenOf node).append (TreeList.cons (setRaw cn (finalizeExpr env ce)) TreeList.nil) ∧
    ∃ c cs', cs = c :: cs' ∧ Formula.eval ρ c = 0 := by
  have hstep : resolveSub (Nat.succ fuel) env st node inp a0 =
      Except.ok (Formula.pynum 1, Formula.pynum 0,
        addChild node (setRaw cn (finalizeExpr env ce)), st2) := by
    rw [resolveSub]
    simp only [hfg, if_true, hcy, Bool.false_eq_true, if_false, hit, hrec]
  obtain ⟨hn, ha, -, -⟩ := (builder_invariants fuel).1 env
    (BState.mk st.actSymbols (st.treeNames ++ [(env.db inp).name]))
    (env.db inp) (newNode (env.db inp).name a0) ce cn st2 hrec
  refine ⟨hstep, ?_, ?_, setRaw_raw _ _, addChild_children _ _, ?_⟩
  · rw [setRaw_name, hn]; rfl
  · rw [setRaw_amount, ha]; rfl
  · rw [processExchanges, hamt] at hrun
    dsimp only at hrun
    rw [if_neg hio] at hrun
    rw [hinp, hstep] at hrun
    dsimp only at hrun
    cases hpe : processExchanges (Nat.succ fuel) env st2
        (addChild node (setRaw cn (finalizeExpr env ce))) rest with
    | error er => rw [hpe] at hrun; cases hrun
    | ok r =>
      obtain ⟨csa, nn, ss⟩ := r
      rw [hpe] at hrun
      simp only [Except.ok.injEq, Prod.mk.injEq] at hrun
      refine ⟨_, csa, hrun.1.symm, ?_⟩
      simp only [pyMul_eval, pynum_eval]
      ring

/-- Claim C10: the cycle check runs for every foreground sub-activity of
a processed exchange, before the tracked/inline branching: whatever the
sub-activity's `include_in_tree` flag, a name already present in the tree
raises the fatal recursive-activity error. -/
theorem claim_c10 (fuel : Nat) (env : Env) (st : BState) (node : ImpactTreeNode)
    (exch : Exchange) (rest : List Exchange) (a0 : Formula)
    (hamt : exch.amount = some a0)
    (hio : ¬ exch.input = exch.output)
    (hfg : env.foreground exch.input.1 = true)
    (hcy : name_already_in_tree st.treeNames (env.db exch.input).name = true) :
    processExchanges (Nat.succ (Nat.succ fuel)) env st node (exch :: rest) =
      Except.error (BuildError.recursiveActivity (env.db exch.input).name) := by
  rw [processExchanges]
  simp only [hamt, if_neg hio]
  rw [resolveSub]
  simp only [hfg, if_true, hcy]

/-- Claim C1 (amended part): a self-referencing exchange (input equal to
output) is silently skipped by the loop — no cycle check runs for it and
it contributes nothing. -/
theorem c1_self_exchange_skipped (fuel : Nat) (env : Env) (st : BState)
    (node : ImpactTreeNode) (exch : Exchange) (rest : List Exchange)
    (hio : exch.input = exch.output) :
    processExchanges (Nat.succ fuel) env st node (exch :: rest) =
      processExchanges fuel env st node rest := by
  rw [processExchanges]
  cases ham : exch.amount with
  | none => rfl
  | some a0 =>
    dsimp only
    rw [if_pos hio]

/-- Claim C1 (counterexample): `actB` is a foreground activity that
consumes itself by name through a technosphere exchange, yet expansion
succeeds and produces a tree instead of raising the recursive-activity
error. -/
theorem c1_counterexample :
    envB.foreground "fg" = true ∧
    actB.key = ("fg", "b") ∧
    actB.name = "B" ∧
    (envB.db ("fg", "b")).name = "B" ∧
    actB.exchanges =
      [Exchange.mk (some (Formula.pynum 2)) ("fg", "b") ("fg", "b") (some "technosphere")] ∧
    actToExpression 5 envB (BState.mk [] ["B"]) actB (newNode "B" (Formula.pynum 1)) =
      Except.ok (ImpactTreeNode.node "B" (Formula.pynum 1)
        (some (pyDiv (Formula.pynum 0) (Formula.pynum 1))) [] TreeList.nil,
        BState.mk [] ["B"]) :=
  ⟨rfl, rfl, rfl, rfl, rfl, rfl⟩

/-- Claim C2: the symbol registry is memoized (a repeated call for the
same `(database, code)` key returns the same symbol without touching the
table), mints the first free candidate `base, base1, base2, …` on a miss
(all smaller candidates being taken), leaves every previously assigned
entry unchanged, and keeps all registered symbol names pairwise distinct
over any sequence of requests. -/
theorem claim_c2 (env : Env) (t : SymTable) (a : Activity) (c c' : Bool) :
    (act_to_symbol env (act_to_symbol env t a c).1 a c' =
      ((act_to_symbol env t a c).1, (act_to_symbol env t a c).2)) ∧
    (assocFind t a.key = none →
      ∃ i, (act_to_symbol env t a c).2 =
          candidateSlug (node_name_to_symbol_name (env.db a.key).name) i ∧
        (act_to_symbol env t a c).2 ∉ usedSymbols t ∧
        ∀ j, j < i →
          candidateSlug (node_name_to_symbol_name (env.db a.key).name) j ∈ usedSymbols t) ∧
    (∀ k v, assocFind t k = some v → assocFind (act_to_symbol env t a c).1 k = some v) ∧
    (∀ acts : List (Activity × Bool),
      (usedSymbols t).Nodup → (usedSymbols (runSymbols env t acts)).Nodup) := by
  refine ⟨act_to_symbol_idem env t a c c', ?_, ?_, ?_⟩
  · intro h
    obtain ⟨i, h1, h2, h3⟩ := act_to_symbol_fresh env t a c h
    exact ⟨i, h1, h2, h3⟩
  · intro k v h
    exact act_to_symbol_preserves env t a c k v h
  · intro acts h
    exact runSymbols_nodup env acts t h

/-- Claim C6: after expansion, a plain Python float is stored as that
canonical number, while a sympy expression is stored with every fixed
parameter substituted by its default value — a substitution that removes
exactly the fixed-parameter symbols and preserves the value under any
assignment agreeing with the defaults. -/
theorem claim_c6 (fuel : Nat) (env : Env) (st : BState) (act : Activity)
    (node tree : ImpactTreeNode) (st1 : BState) (x : String) (ρ : String → ℚ)
    (h : actToExpression fuel env st act node = Except.ok (tree, st1))
    (hρ : ∀ n v, assocFind env.fixedParams n = some v → ρ n = v) :
    ∃ e n1, rec_func fuel env st act node = Except.ok (e, n1, st1) ∧
      tree = setRaw n1 (finalizeExpr env e) ∧
      rawOf tree = some (finalizeExpr env e) ∧
      ((∃ q, e = Formula.pynum q ∧ rawOf tree = some (Formula.pynum q)) ∨
       (∃ s, e = Formula.sexpr s ∧
         rawOf tree = some (Formula.sexpr (s.substNum env.fixedParams)) ∧
         (x ∈ (s.substNum env.fixedParams).freeSymbols ↔
           x ∈ s.freeSymbols ∧ assocFind env.fixedParams x = none) ∧
         (s.substNum env.fixedParams).eval ρ = s.eval ρ)) := by
  obtain ⟨e, n1, hrf, htree⟩ := actToExpression_ok fuel env st act node tree st1 h
  refine ⟨e, n1, hrf, htree, by rw [htree, setRaw_raw], ?_⟩
  cases e with
  | pynum q => exact Or.inl ⟨q, rfl, by rw [htree, setRaw_raw]; rfl⟩
  | sexpr s =>
    exact Or.inr ⟨s, rfl, by rw [htree, setRaw_raw]; rfl,
      substNum_freeSymbols env.fixedParams s x, substNum_eval env.fixedParams ρ hρ s⟩

/-- Claim C7 (amended part): the module-global registry is append-only
across a whole build — every entry present before a call to
`build_impact_tree_and_parameters` is still present, unchanged, in the
registry the build leaves behind (entries are never mutated or deleted,
and later builds observe earlier builds' entries). -/
theorem claim_c7 (fuel : Nat) (env : Env) (registry : List String) (catalog : List Param)
    (table : SymTable) (fu : Activity) (methods : List String)
    (k : String × String) (v : ActSymbol) (h : assocFind table k = some v) :
    assocFind
      (build_impact_tree_and_parameters fuel env registry catalog table fu methods).table
      k = some v := by
  unfold build_impact_tree_and_parameters
  cases hm : mapExcept (to_bw_method registry) methods with
  | error e => exact h
  | ok mbw =>
    cases hact : actToExpression fuel env (BState.mk table [fu.name]) fu (rootNode fu) with
    | error e => exact h
    | ok r =>
      obtain ⟨tree, st1⟩ := r
      have hmono : assocFind st1.actSymbols k = some v := by
        obtain ⟨e, n1, hrf, -⟩ := actToExpression_ok _ _ _ _ _ _ _ hact
        exact ((builder_invariants fuel).1 _ _ _ _ _ _ _ hrf).2.2.2 k v h
      dsimp only
      split
      · exact hmono
      · split
        · exact hmono
        · exact hmono

/-- Claim C7 (counterexample): two successive builds do not observe
independent fresh registries.  Run on the registry left by the first
build, the second build still sees the first build's entry and mints
`a1` for its background activity named `a`, whereas the same build on a
fresh registry mints `a`. -/
theorem c7_counterexample :
    gBuild1.table = [(("bg", "b1"), ActSymbol.mk "a" true)] ∧
    assocFind gBuild2.table ("bg", "b1") = some (ActSymbol.mk "a" true) ∧
    assocFind gBuild2.table ("bg", "b2") = some (ActSymbol.mk "a1" true) ∧
    assocFind gBuild2Fresh.table ("bg", "b2") = some (ActSymbol.mk "a" true) ∧
    ActSymbol.mk "a1" true ≠ ActSymbol.mk "a" true :=
  ⟨rfl, rfl, rfl, rfl, by decide⟩

/-- Claim C8: when a registry activity-symbol name coincides with a
declared catalog parameter name, the build fails with the collision error
carrying the offending names, and neither background resolution nor
substitution is reached. -/
theorem claim_c8 (fuel : Nat) (env : Env) (registry : List String) (catalog : List Param)
    (table : SymTable) (fu : Activity) (methods methods_bw : List String)
    (tree : ImpactTreeNode) (st1 : BState)
    (hmap : mapExcept (to_bw_method registry) methods = Except.ok methods_bw)
    (hact : actToExpression fuel env (BState.mk table [fu.name]) fu (rootNode fu) =
      Except.ok (tree, st1))
    (hforb : forbiddenOf catalog (usedSymbols st1.actSymbols) ≠ []) :
    (build_impact_tree_and_parameters fuel env registry catalog table fu methods).result =
      Except.error (BuildError.forbiddenParams
        (forbiddenOf catalog (usedSymbols st1.actSymbols))) ∧
    Stage.backgroundResolved ∉
      (build_impact_tree_and_parameters fuel env registry catalog table fu methods).trace ∧
    Stage.substituted ∉
      (build_impact_tree_and_parameters fuel env registry catalog table fu methods).trace := by
  have hlen : (forbiddenOf catalog (usedSymbols st1.actSymbols)).length > 0 :=
    List.length_pos.mpr hforb
  unfold build_impact_tree_and_parameters
  rw [hmap, hact]
  dsimp only
  rw [if_pos hlen]
  refine ⟨rfl, ?_, ?_⟩ <;> simp

/-- A `to_bw_method` lookup whose match count differs from one fails with
a lookup-style error. -/
theorem to_bw_method_count_error (registry : List String) (m : String)
    (h : (registry.filter (fun r => strContains r m)).length ≠ 1) :
    ∃ e, to_bw_method registry m = Except.error e ∧ e.isLookup = true := by
  unfold to_bw_method
  dsimp only
  by_cases h1 : (registry.filter (fun r => strContains r m)).length < 1
  · exact ⟨BuildError.methodNotFound m, by rw [if_pos h1], rfl⟩
  · have h2 : (registry.filter (fun r => strContains r m)).length > 1 := by omega
    exact ⟨BuildError.methodAmbiguous m (registry.filter (fun r => strContains r m)),
      by rw [if_neg h1, if_pos h2], rfl⟩

/-- Any error raised by `to_bw_method` is a lookup-style error. -/
theorem to_bw_method_error_isLookup (registry : List String) (m : String) (e : BuildError)
    (h : to_bw_method registry m = Except.error e) : e.isLookup = true := by
  unfold to_bw_method at h
  dsimp only at h
  split at h
  · cases h; rfl
  · split at h
    · cases h; rfl
    · cases h

/-- If some requested method has a match count different from one, the
method-resolution pass fails with a lookup-style error. -/
theorem mapExcept_method_error (registry : List String) :
    ∀ methods : List String,
      (∃ m ∈ methods, (registry.filter (fun r => strContains r m)).length ≠ 1) →
      ∃ e, mapExcept (to_bw_method registry) methods = Except.error e ∧
        e.isLookup = true := by
  intro methods
  induction methods with
  | nil =>
    rintro ⟨m, hm, -⟩
    cases hm
  | cons m0 rest ih =>
    rintro ⟨m, hm, hcnt⟩
    rw [mapExcept]
    cases hb : to_bw_method registry m0 with
    | error e =>
      exact ⟨e, rfl, to_bw_method_error_isLookup registry m0 e hb⟩
    | ok b =>
      rcases List.mem_cons.mp hm with rfl | hmem
      · obtain ⟨e, he, -⟩ := to_bw_method_count_error registry m hcnt
        rw [hb] at he
        cases he
      · obtain ⟨e, he, hl⟩ := ih ⟨m, hmem, hcnt⟩
        refine ⟨e, ?_, hl⟩
        rw [he]

/-- Claim C9: when the functional unit name matches zero or several
activities, or some requested method matches zero or several registry
entries, the build fails with a lookup-style error and no tree is
expanded. -/
theorem claim_c9 (fuel : Nat) (env : Env) (registry : List String) (catalog : List Param)
    (database : List Activity) (table : SymTable) (fu : String) (methods : List String)
    (h : (database.filter (fun a => a.name = fu)).length ≠ 1 ∨
      ∃ m ∈ methods, (registry.filter (fun r => strContains r m)).length ≠ 1) :
    ∃ e, (build_impact_model fuel env registry catalog database table fu methods).result =
        Except.error e ∧ e.isLookup = true ∧
      Stage.treeExpanded ∉
        (build_impact_model fuel env registry catalog database table fu methods).trace := by
  by_cases hfu : (database.filter (fun a => a.name = fu)).length = 1
  · rcases h with hfu' | ⟨m, hm, hcnt⟩
    · exact absurd hfu hfu'
    · obtain ⟨e, he, hl⟩ := mapExcept_method_error registry methods ⟨m, hm, hcnt⟩
      refine ⟨e, ?_, hl, ?_⟩
      · unfold build_impact_model
        dsimp only
        rw [if_neg (by omega), if_neg (by omega)]
        unfold build_impact_tree_and_parameters
        rw [he]
      · unfold build_impact_model
        dsimp only
        rw [if_neg (by omega), if_neg (by omega)]
        unfold build_impact_tree_and_parameters
        rw [he]
        simp
  · by_cases hlt : (database.filter (fun a => a.name = fu)).length < 1
    · refine ⟨BuildError.fuNotFound fu, ?_, rfl, ?_⟩
      · unfold build_impact_model
        dsimp only
        rw [if_pos hlt]
      · unfold build_impact_model
        dsimp only
        rw [if_pos hlt]
        simp
    · have hgt : (database.filter (fun a => a.name = fu)).length > 1 := by omega
      refine ⟨BuildError.fuAmbiguous fu, ?_, rfl, ?_⟩
      · unfold build_impact_model
        dsimp only
        rw [if_neg hlt, if_pos hgt]
      · unfold build_impact_model
        dsimp only
        rw [if_neg hlt, if_pos hgt]
        simp

/-- Witness for claim C2, on two background activities that share the
derived name `a`. -/
theorem claim_c2_witness :
    (act_to_symbol envG (act_to_symbol envG [] actB1 true).1 actB1 true =
      ((act_to_symbol envG [] actB1 true).1, (act_to_symbol envG [] actB1 true).2)) ∧
    (∃ i, (act_to_symbol envG [] actB1 true).2 =
        candidateSlug (node_name_to_symbol_name (envG.db actB1.key).name) i ∧
      (act_to_symbol envG [] actB1 true).2 ∉ usedSymbols ([] : SymTable) ∧
      ∀ j, j < i →
        candidateSlug (node_name_to_symbol_name (envG.db actB1.key).name) j ∈
          usedSymbols ([] : SymTable)) ∧
    (usedSymbols (runSymbols envG [] [(actB1, true), (actB2, true)])).Nodup :=
  ⟨(claim_c2 envG [] actB1 true true).1,
   (claim_c2 envG [] actB1 true true).2.1 (by rfl),
   (claim_c2 envG [] actB1 true true).2.2.2 [(actB1, true), (actB2, true)]
     (by simp [usedSymbols])⟩

/-- Witness for claim C3: expanding `actX1` (output amount 1, one
background exchange of amount 2) returns the contribution sum divided by
the output amount. -/
theorem claim_c3_witness :
    ∃ contribs,
      processExchanges 4 envG (BState.mk [] ["X1"]) (newNode "X1" (Formula.pynum 1))
          actX1.exchanges =
        Except.ok (contribs, newNode "X1" (Formula.pynum 1),
          BState.mk [(("bg", "b1"), ActSymbol.mk "a" true)] ["X1"]) ∧
      pyDiv (pyAdd (Formula.pynum 0)
          (pyMul (pyMul (Formula.pynum 2) (Formula.sexpr (SExpr.sym "a"))) (Formula.pynum 1)))
          (Formula.pynum 1) =
        pyDiv (contribs.foldl pyAdd (Formula.pynum 0)) (Formula.pynum actX1.outputAmount) ∧
      Formula.eval (fun _ => 0)
          (pyDiv (pyAdd (Formula.pynum 0)
            (pyMul (pyMul (Formula.pynum 2) (Formula.sexpr (SExpr.sym "a")))
              (Formula.pynum 1))) (Formula.pynum 1)) =
        (contribs.map (Formula.eval (fun _ => 0))).sum / actX1.outputAmount :=
  claim_c3 4 envG (BState.mk [] ["X1"]) actX1 (newNode "X1" (Formula.pynum 1))
    (pyDiv (pyAdd (Formula.pynum 0)
      (pyMul (pyMul (Formula.pynum 2) (Formula.sexpr (SExpr.sym "a"))) (Formula.pynum 1)))
      (Formula.pynum 1))
    (newNode "X1" (Formula.pynum 1))
    (BState.mk [(("bg", "b1"), ActSymbol.mk "a" true)] ["X1"])
    (by rfl) (by rfl) (fun _ => 0)

/-- Witness for claim C4, on the avoided-burden exchange `exchProd` and
its technosphere variant. -/
theorem claim_c4_witness :
    ∃ cs' cs2',
      [pyMul (pyMul (Formula.pynum 2) (Formula.sexpr (SExpr.sym "a"))) (Formula.pynum (-1))] =
        pyMul (pyMul (Formula.pynum 2) (Formula.sexpr (SExpr.sym "a")))
          (Formula.pynum (-1)) :: cs' ∧
      [pyMul (pyMul (Formula.pynum 2) (Formula.sexpr (SExpr.sym "a"))) (Formula.pynum 1)] =
        pyMul (pyMul (Formula.pynum 2) (Formula.sexpr (SExpr.sym "a")))
          (Formula.pynum 1) :: cs2' ∧
      Formula.eval (fun _ => 2)
          (pyMul (pyMul (Formula.pynum 2) (Formula.sexpr (SExpr.sym "a")))
            (Formula.pynum (-1))) =
        -(Formula.eval (fun _ => 2) (Formula.pynum 2) *
          Formula.eval (fun _ => 2) (Formula.sexpr (SExpr.sym "a"))) ∧
      Formula.eval (fun _ => 2)
          (pyMul (pyMul (Formula.pynum 2) (Formula.sexpr (SExpr.sym "a")))
            (Formula.pynum 1)) =
        Formula.eval (fun _ => 2) (Formula.pynum 2) *
          Formula.eval (fun _ => 2) (Formula.sexpr (SExpr.sym "a")) ∧
      Formula.eval (fun _ => 2)
          (pyMul (pyMul (Formula.pynum 2) (Formula.sexpr (SExpr.sym "a")))
            (Formula.pynum 1)) =
        -(Formula.eval (fun _ => 2)
          (pyMul (pyMul (Formula.pynum 2) (Formula.sexpr (SExpr.sym "a")))
            (Formula.pynum (-1)))) :=
  claim_c4 3 envG (BState.mk [] ["XP"]) (newNode "XP" (Formula.pynum 1)) exchProd []
    (Formula.pynum 2) (Formula.pynum 2) (Formula.sexpr (SExpr.sym "a"))
    (newNode "XP" (Formula.pynum 1))
    (BState.mk [(("bg", "b1"), ActSymbol.mk "a" true)] ["XP"])
    (some "technosphere")
    [pyMul (pyMul (Formula.pynum 2) (Formula.sexpr (SExpr.sym "a"))) (Formula.pynum (-1))]
    [pyMul (pyMul (Formula.pynum 2) (Formula.sexpr (SExpr.sym "a"))) (Formula.pynum 1)]
    (newNode "XP" (Formula.pynum 1)) (newNode "XP" (Formula.pynum 1))
    (BState.mk [(("bg", "b1"), ActSymbol.mk "a" true)] ["XP"])
    (BState.mk [(("bg", "b1"), ActSymbol.mk "a" true)] ["XP"])
    (fun _ => 2)
    (by rfl) (by decide) (by rfl) (by decide) (by rfl) (by rfl) (by rfl)

/-- Witness for claim C5: expanding `actXC` creates the tracked child
`YC` with the exchange amount 5 and a zero contribution to the parent. -/
theorem claim_c5_witness :
    resolveSub (Nat.succ 2) envG (BState.mk [] ["XC"]) (newNode "XC" (Formula.pynum 1))
        ("fg", "yc") (Formula.pynum 5) =
      Except.ok (Formula.pynum 1, Formula.pynum 0,
        addChild (newNode "XC" (Formula.pynum 1))
          (setRaw (newNode "YC" (Formula.pynum 5))
            (finalizeExpr envG (pyDiv (Formula.pynum 0) (Formula.pynum 1)))),
        BState.mk [] ["XC", "YC"]) ∧
    nameOf (setRaw (newNode "YC" (Formula.pynum 5))
        (finalizeExpr envG (pyDiv (Formula.pynum 0) (Formula.pynum 1)))) =
      (envG.db ("fg", "yc")).name ∧
    amountOf (setRaw (newNode "YC" (Formula.pynum 5))
        (finalizeExpr envG (pyDiv (Formula.pynum 0) (Formula.pynum 1)))) =
      Formula.pynum 5 ∧
    rawOf (setRaw (newNode "YC" (Formula.pynum 5))
        (finalizeExpr envG (pyDiv (Formula.pynum 0) (Formula.pynum 1)))) =
      some (finalizeExpr envG (pyDiv (Formula.pynum 0) (Formula.pynum 1))) ∧
    childrenOf (addChild (newNode "XC" (Formula.pynum 1))
        (setRaw (newNode "YC" (Formula.pynum 5))
          (finalizeExpr envG (pyDiv (Formula.pynum 0) (Formula.pynum 1))))) =
      (childrenOf (newNode "XC" (Formula.pynum 1))).append
        (TreeList.cons (setRaw (newNode "YC" (Formula.pynum 5))
          (finalizeExpr envG (pyDiv (Formula.pynum 0) (Formula.pynum 1)))) TreeList.nil) ∧
    ∃ c cs',
      [pyMul (pyMul (Formula.pynum 1) (Formula.pynum 0)) (Formula.pynum 1)] = c :: cs' ∧
      Formula.eval (fun _ => 3) c = 0 :=
  claim_c5 2 envG (BState.mk [] ["XC"]) (newNode "XC" (Formula.pynum 1)) ("fg", "yc")
    (Formula.pynum 5) (pyDiv (Formula.pynum 0) (Formula.pynum 1))
    (newNode "YC" (Formula.pynum 5)) (BState.mk [] ["XC", "YC"]) exchXC []
    [pyMul (pyMul (Formula.pynum 1) (Formula.pynum 0)) (Formula.pynum 1)]
    (addChild (newNode "XC" (Formula.pynum 1))
      (setRaw (newNode "YC" (Formula.pynum 5))
        (finalizeExpr envG (pyDiv (Formula.pynum 0) (Formula.pynum 1)))))
    (BState.mk [] ["XC", "YC"]) (fun _ => 3)
    (by rfl) (by rfl) (by rfl) (by rfl) (by rfl) (by rfl) (by decide) (by rfl)

/-- Witness for claim C10: an exchange to the inline (untracked)
foreground activity `YI`, whose name is already among the tree names,
raises the recursive-activity error. -/
theorem claim_c10_witness :
    processExchanges (Nat.succ (Nat.succ 0)) envG (BState.mk [] ["XI", "YI"])
        (newNode "XI" (Formula.pynum 1)) [exchXI] =
      Except.error (BuildError.recursiveActivity (envG.db ("fg", "yi")).name) :=
  claim_c10 0 envG (BState.mk [] ["XI", "YI"]) (newNode "XI" (Formula.pynum 1)) exchXI []
    (Formula.pynum 7) (by rfl) (by decide) (by rfl) (by rfl)

/-- Witness for the amended claim C1: the self-referencing exchange of
`actB` is skipped silently by the loop. -/
theorem c1_self_exchange_skipped_witness :
    processExchanges (Nat.succ 3) envB (BState.mk [] ["B"]) (newNode "B" (Formula.pynum 1))
        (Exchange.mk (some (Formula.pynum 2)) ("fg", "b") ("fg", "b")
          (some "technosphere") :: []) =
      processExchanges 3 envB (BState.mk [] ["B"]) (newNode "B" (Formula.pynum 1)) [] :=
  c1_self_exchange_skipped 3 envB (BState.mk [] ["B"]) (newNode "B" (Formula.pynum 1))
    (Exchange.mk (some (Formula.pynum 2)) ("fg", "b") ("fg", "b") (some "technosphere")) []
    (by rfl)

/-- Witness for claim C6: expanding `actXF` stores the raw formula with
the fixed parameter `p` replaced by its default 3. -/
theorem claim_c6_witness :
    ∃ e n1,
      rec_func 5 envG (BState.mk [] ["XF"]) actXF (newNode "XF" (Formula.pynum 1)) =
        Except.ok (e, n1, BState.mk [(("bg", "b1"), ActSymbol.mk "a" true)] ["XF"]) ∧
      ImpactTreeNode.node "XF" (Formula.pynum 1)
          (some (Formula.sexpr (SExpr.div
            (SExpr.add (SExpr.num 0)
              (SExpr.mul (SExpr.mul (SExpr.num 3) (SExpr.sym "a")) (SExpr.num 1)))
            (SExpr.num 1)))) [] TreeList.nil =
        setRaw n1 (finalizeExpr envG e) ∧
      rawOf (ImpactTreeNode.node "XF" (Formula.pynum 1)
          (some (Formula.sexpr (SExpr.div
            (SExpr.add (SExpr.num 0)
              (SExpr.mul (SExpr.mul (SExpr.num 3) (SExpr.sym "a")) (SExpr.num 1)))
            (SExpr.num 1)))) [] TreeList.nil) =
        some (finalizeExpr envG e) ∧
      ((∃ q, e = Formula.pynum q ∧
        rawOf (ImpactTreeNode.node "XF" (Formula.pynum 1)
          (some (Formula.sexpr (SExpr.div
            (SExpr.add (SExpr.num 0)
              (SExpr.mul (SExpr.mul (SExpr.num 3) (SExpr.sym "a")) (SExpr.num 1)))
            (SExpr.num 1)))) [] TreeList.nil) = some (Formula.pynum q)) ∨
       (∃ s, e = Formula.sexpr s ∧
         rawOf (ImpactTreeNode.node "XF" (Formula.pynum 1)
          (some (Formula.sexpr (SExpr.div
            (SExpr.add (SExpr.num 0)
              (SExpr.mul (SExpr.mul (SExpr.num 3) (SExpr.sym "a")) (SExpr.num 1)))
            (SExpr.num 1)))) [] TreeList.nil) =
           some (Formula.sexpr (s.substNum envG.fixedParams)) ∧
         ("p" ∈ (s.substNum envG.fixedParams).freeSymbols ↔
           "p" ∈ s.freeSymbols ∧ assocFind envG.fixedParams "p" = none) ∧
         (s.substNum envG.fixedParams).eval (fun s => if s = "p" then 3 else 0) =
           s.eval (fun s => if s = "p" then 3 else 0))) :=
  claim_c6 5 envG (BState.mk [] ["XF"]) actXF (newNode "XF" (Formula.pynum 1))
    (ImpactTreeNode.node "XF" (Formula.pynum 1)
      (some (Formula.sexpr (SExpr.div
        (SExpr.add (SExpr.num 0)
          (SExpr.mul (SExpr.mul (SExpr.num 3) (SExpr.sym "a")) (SExpr.num 1)))
        (SExpr.num 1)))) [] TreeList.nil)
    (BState.mk [(("bg", "b1"), ActSymbol.mk "a" true)] ["XF"])
    "p" (fun s => if s = "p" then 3 else 0)
    (by rfl)
    (by
      intro n v h
      simp [assocFind] at h
      rcases h with ⟨rfl, rfl⟩
      rfl)

/-- Witness for the amended claim C7: the entry minted by the first build
is still present, unchanged, after the second build. -/
theorem claim_c7_witness :
    assocFind gBuild2.table ("bg", "b1") = some (ActSymbol.mk "a" true) :=
  claim_c7 10 envG [] [] gBuild1.table actX2 [] ("bg", "b1") (ActSymbol.mk "a" true)
    (by rfl)

/-- Witness for claim C8: the activity symbol `p1` of `actBQ` collides
with the declared parameter `p1`, the build errors with that name, and
background resolution is never reached. -/
theorem claim_c8_witness :
    (build_impact_tree_and_parameters 5 envG [] catalogP [] actXQ []).result =
      Except.error (BuildError.forbiddenParams (forbiddenOf catalogP
        (usedSymbols (BState.mk
          [(("bg", "q"), ActSymbol.mk "p1" true)] ["XQ"]).actSymbols))) ∧
    Stage.backgroundResolved ∉
      (build_impact_tree_and_parameters 5 envG [] catalogP [] actXQ []).trace ∧
    Stage.substituted ∉
      (build_impact_tree_and_parameters 5 envG [] catalogP [] actXQ []).trace :=
  claim_c8 5 envG [] catalogP [] actXQ [] []
    (ImpactTreeNode.node "XQ" (Formula.pynum 1)
      (some (Formula.sexpr (SExpr.div
        (SExpr.add (SExpr.num 0)
          (SExpr.mul (SExpr.mul (SExpr.num 2) (SExpr.sym "p1")) (SExpr.num 1)))
        (SExpr.num 1)))) [] TreeList.nil)
    (BState.mk [(("bg", "q"), ActSymbol.mk "p1" true)] ["XQ"])
    (by rfl) (by rfl) (by decide)

/-- Witness for claim C9: the requested method `GWP` matches two entries
of `registryR`, the build fails with a lookup error and no tree is
expanded. -/
theorem claim_c9_witness :
    ∃ e, (build_impact_model 5 envG registryR [] [actXQ] [] "XQ" ["GWP"]).result =
        Except.error e ∧ e.isLookup = true ∧
      Stage.treeExpanded ∉
        (build_impact_model 5 envG registryR [] [actXQ] [] "XQ" ["GWP"]).trace :=
  claim_c9 5 envG registryR [] [actXQ] [] "XQ" ["GWP"]
    (Or.inr ⟨"GWP", by decide, by decide⟩)

/-- Supporting result for claim C1: a consumption cycle that passes only
through inline (untracked) foreground activities is never caught by the
name-based cycle check — the walk exhausts every amount of fuel (the
embedding of unbounded recursion) and never raises the
recursive-activity error, for any starting node whose tree does not
happen to contain the cycling names. -/
theorem c1_inline_cycle_diverges : ∀ fuel : Nat, ∀ (st : BState) (node : ImpactTreeNode),
    "BI" ∉ st.treeNames → "CI" ∉ st.treeNames →
    rec_func fuel envI st actBI node = Except.error BuildError.outOfFuel ∧
    rec_func fuel envI st actCI node = Except.error BuildError.outOfFuel := by
  intro fuel
  induction fuel using Nat.strong_induction_on with
  | _ fuel ih =>
    intro st node hB hC
    rcases fuel with _ | fuel
    · exact ⟨rfl, rfl⟩
    rcases fuel with _ | fuel
    · exact ⟨rfl, rfl⟩
    rcases fuel with _ | fuel
    · exact ⟨rfl, rfl⟩
    have hcyC : name_already_in_tree st.treeNames (envI.db ("fg", "ci")).name = false := by
      simp [name_already_in_tree, envI, actCI, hC]
    have hcyB : name_already_in_tree st.treeNames (envI.db ("fg", "bi")).name = false := by
      simp [name_already_in_tree, envI, actBI, hB]
    obtain ⟨hihB, hihC⟩ := ih fuel (by omega) st node hB hC
    constructor
    · have hf : envI.foreground actBI.key.1 = true := rfl
      rw [rec_func, hf]
      simp only [if_true]
      rw [show actBI.exchanges =
        [Exchange.mk (some (Formula.pynum 1)) ("fg", "ci") ("fg", "bi")
          (some "technosphere")] from rfl]
      rw [processExchanges]
      dsimp only
      rw [if_neg (by decide)]
      rw [resolveSub]
      have hf2 : envI.foreground ("fg", "ci").1 = true := rfl
      simp only [hf2, if_true, hcyC, Bool.false_eq_true, if_false]
      have hin : (envI.db ("fg", "ci")).includeInTree = false := rfl
      simp only [hin, Bool.false_eq_true, if_false]
      rw [show envI.db ("fg", "ci") = actCI from rfl, hihC]
    · have hf : envI.foreground actCI.key.1 = true := rfl
      rw [rec_func, hf]
      simp only [if_true]
      rw [show actCI.exchanges =
        [Exchange.mk (some (Formula.pynum 1)) ("fg", "bi") ("fg", "ci")
          (some "technosphere")] from rfl]
      rw [processExchanges]
      dsimp only
      rw [if_neg (by decide)]
      rw [resolveSub]
      have hf2 : envI.foreground ("fg", "bi").1 = true := rfl
      simp only [hf2, if_true, hcyB, Bool.false_eq_true, if_false]
      have hin : (envI.db ("fg", "bi")).includeInTree = false := rfl
      simp only [hin, Bool.false_eq_true, if_false]
      rw [show envI.db ("fg", "bi") = actBI from rfl, hihB]
